import Mathlib

/-!
Verification development for the resume-parser-api repository.

The Python sources are shallowly embedded: text is `List Char` (Python `str`),
Python string methods become executable list functions, fallible code returns
`Except`, and the LangGraph pipeline becomes explicit state passing over a
`PState` record.  Each embedded definition mirrors one Python symbol, named
after it where possible.
-/

namespace RP

/-- Decidable equality for `Except`, so that concrete runs of the embedded
fallible functions can be checked by `decide`. -/
instance {ε α : Type} [DecidableEq ε] [DecidableEq α] : DecidableEq (Except ε α) := fun x y =>
  match x, y with
  | .ok a, .ok b =>
    if h : a = b then .isTrue (congrArg Except.ok h)
    else .isFalse (fun hh => h (Except.ok.inj hh))
  | .error a, .error b =>
    if h : a = b then .isTrue (congrArg Except.error h)
    else .isFalse (fun hh => h (Except.error.inj hh))
  | .ok _, .error _ => .isFalse (fun hh => Except.noConfusion hh)
  | .error _, .ok _ => .isFalse (fun hh => Except.noConfusion hh)

/-- Python text, embedded as a list of characters. -/
abbrev Str := List Char

/-- The characters Python's `str.strip()` / `str.split()` / `str.isspace()`
treat as whitespace (ASCII fragment). -/
def isPyWs (c : Char) : Bool :=
  c = ' ' || c = '\t' || c = '\n' || c = '\r' || c = '\x0b' || c = '\x0c'

/-- Python `str.lstrip()`. -/
def pyLStrip (s : Str) : Str := s.dropWhile isPyWs

/-- Python `str.rstrip()`. -/
def pyRStrip (s : Str) : Str := (s.reverse.dropWhile isPyWs).reverse

/-- Python `str.strip()`. -/
def pyStrip (s : Str) : Str := pyLStrip (pyRStrip s)

/-- ASCII lowering of one character, modelling Python `str.lower()`. -/
def lowerChar (c : Char) : Char :=
  if 'A' ≤ c ∧ c ≤ 'Z' then Char.ofNat (c.toNat + 32) else c

/-- Python `str.lower()`. -/
def pyLower (s : Str) : Str := s.map lowerChar

/-- Python `str.split(sep)` for a one-character separator: split at every
occurrence, keeping empty segments (so `"".split(",") == [""]`). -/
def splitOnChar (sep : Char) : Str → List Str
  | [] => [[]]
  | c :: rest =>
    if c = sep then [] :: splitOnChar sep rest
    else
      match splitOnChar sep rest with
      | [] => [[c]]
      | g :: gs => (c :: g) :: gs

/-- Python `sep.join(segments)` for a one-character separator. -/
def joinWith (sep : Char) : List Str → Str
  | [] => []
  | [g] => g
  | g :: gs => g ++ sep :: joinWith sep gs

/-- Helper for `countWords`: counts maximal non-whitespace runs; the flag
records whether the previous character was inside a word. -/
def countWordsAux : Bool → Str → Nat
  | _, [] => 0
  | inWord, c :: rest =>
    if isPyWs c then countWordsAux false rest
    else (if inWord then 0 else 1) + countWordsAux true rest

/-- `len(text.split())`: the number of maximal whitespace-separated runs. -/
def countWords (s : Str) : Nat := countWordsAux false s

-- ---------------------------------------------------------------------------
-- src/config.py
-- ---------------------------------------------------------------------------

/-- `ModelRef` from `src/config.py`: an immutable (provider, model) pair. -/
structure ModelRef where
  provider : String
  model : String
deriving DecidableEq

/-- The keys of `REGISTERED_PROVIDERS` in `src/config.py` (the mapped
credential field names are irrelevant to chain parsing). -/
def REGISTERED_PROVIDERS : List String := ["openrouter", "anthropic", "openai"]

/-- The three distinct `ValueError`s `parse_chain` can raise, distinguished by
their messages; each carries the `field_name` and the offending data the
Python message interpolates. -/
inductive ChainError where
  | emptyEntry (field : String)
  | missingSlash (field : String) (entry : String)
  | unknownProvider (field : String) (provider : String) (entry : String)
deriving DecidableEq

/-- The entry loop of `parse_chain` in `src/config.py`: strip each entry,
reject empty entries, entries without "/", and unregistered providers;
the first failing entry wins. -/
def parse_chain_entries (field : String) : List Str → Except ChainError (List ModelRef)
  | [] => .ok []
  | e :: rest =>
    let entry := pyStrip e
    if entry.isEmpty then .error (.emptyEntry field)
    else if !entry.contains '/' then .error (.missingSlash field (String.mk entry))
    else
      let provider := String.mk (entry.takeWhile (fun c => c ≠ '/'))
      let model := String.mk ((entry.dropWhile (fun c => c ≠ '/')).drop 1)
      if REGISTERED_PROVIDERS.contains provider then
        match parse_chain_entries field rest with
        | .ok refs => .ok (⟨provider, model⟩ :: refs)
        | .error err => .error err
      else .error (.unknownProvider field provider (String.mk entry))

/-- `parse_chain` from `src/config.py`: split on commas, then run the
per-entry validation loop. -/
def parse_chain (chain_str : String) (field : String) : Except ChainError (List ModelRef) :=
  parse_chain_entries field (splitOnChar ',' chain_str.data)

/-- The errors `Settings._validate_model_chains` can raise. -/
inductive ConfigError where
  | parseModelsRequired
  | chain (e : ChainError)
deriving DecidableEq

/-- `Settings._validate_model_chains` from `src/config.py`, as a function of
the two chain strings: the parse chain must not be empty or "none"
(case-insensitive) and must parse; the OCR chain is validated only when it is
not the empty/"none" sentinel. -/
def validate_model_chains (parseModels ocrModels : String) : Except ConfigError Unit :=
  let parse_raw := pyStrip parseModels.data
  if parse_raw.isEmpty || pyLower parse_raw = "none".data then .error .parseModelsRequired
  else
    match parse_chain_entries "DEFAULT_PARSE_MODELS" (splitOnChar ',' parse_raw) with
    | .error e => .error (.chain e)
    | .ok _ =>
      let ocr_raw := pyStrip ocrModels.data
      if !ocr_raw.isEmpty && pyLower ocr_raw ≠ "none".data then
        match parse_chain_entries "DEFAULT_OCR_MODELS" (splitOnChar ',' ocr_raw) with
        | .error e => .error (.chain e)
        | .ok _ => .ok ()
      else .ok ()

/-- `Settings.ocr_model_chain` from `src/config.py`: the empty/"none" sentinel
yields the empty chain (OCR disabled); anything else is parsed. -/
def ocr_model_chain (ocrModels : String) : Except ChainError (List ModelRef) :=
  let raw := pyStrip ocrModels.data
  if raw.isEmpty || pyLower raw = "none".data then .ok []
  else parse_chain_entries "DEFAULT_OCR_MODELS" (splitOnChar ',' raw)

/-- `Settings.parse_model_chain` from `src/config.py`. -/
def parse_model_chain (parseModels : String) : Except ChainError (List ModelRef) :=
  parse_chain_entries "DEFAULT_PARSE_MODELS" (splitOnChar ',' (pyStrip parseModels.data))

-- ---------------------------------------------------------------------------
-- src/extraction/quality.py
-- ---------------------------------------------------------------------------

/-- `MIN_CHARS` from `src/extraction/quality.py`. -/
def MIN_CHARS : Nat := 100

/-- `MIN_WORDS` from `src/extraction/quality.py`. -/
def MIN_WORDS : Nat := 20

/-- `MIN_ALPHA_RATIO` from `src/extraction/quality.py`, as an exact rational. -/
def MIN_ALPHA_RATIO_Q : ℚ := 1 / 2

/-- `TextQuality` from `src/extraction/quality.py` (float fields become exact
rationals). -/
structure TextQuality where
  score : ℚ
  char_count : Nat
  word_count : Nat
  alpha_ratio : ℚ
  sufficient : Bool
deriving DecidableEq

/-- `score_quality` from `src/extraction/quality.py`.  `c.isAlpha` models
Python `str.isalpha()` on the ASCII fragment. -/
def score_quality (text : Str) : TextQuality :=
  let char_count := text.length
  let word_count := if (pyStrip text).isEmpty then 0 else countWords text
  let non_ws := text.filter (fun c => !isPyWs c)
  let alpha_count := (non_ws.filter (fun c => c.isAlpha)).length
  let alpha_ratio : ℚ := if non_ws.isEmpty then 0 else (alpha_count : ℚ) / (non_ws.length : ℚ)
  let passes_chars := decide (MIN_CHARS ≤ char_count)
  let passes_words := decide (MIN_WORDS ≤ word_count)
  let passes_alpha := decide (MIN_ALPHA_RATIO_Q ≤ alpha_ratio)
  let criteria_met : Nat :=
    (if passes_chars then 1 else 0) + (if passes_words then 1 else 0) +
      (if passes_alpha then 1 else 0)
  { score := (criteria_met : ℚ) / 3
    char_count := char_count
    word_count := word_count
    alpha_ratio := alpha_ratio
    sufficient := passes_chars && passes_words && passes_alpha }

/-- `is_text_sufficient` from `src/extraction/quality.py`. -/
def is_text_sufficient (text : Str) : Bool := (score_quality text).sufficient

-- ---------------------------------------------------------------------------
-- Python exceptions shared by the embedded modules
-- ---------------------------------------------------------------------------

/-- The Python exception classes the embedded code can raise.  `ProviderError`
is the typed error from `src/providers/exceptions.py`; `NotImplementedError`
and `ValueError` are builtins raised by `src/providers/factory.py` and
`src/extraction/factory.py`; `IndexError` is what a Python list raises on an
out-of-range index. -/
inductive PyExc where
  | providerError (message : String)
  | notImplementedError (message : String)
  | valueError (message : String)
  | indexError
deriving DecidableEq

-- ---------------------------------------------------------------------------
-- src/extraction/base.py and src/extraction/factory.py
-- ---------------------------------------------------------------------------

/-- `ExtractionResult` from `src/extraction/base.py` (the derived
`char_count`/`word_count` fields are recomputable from `text` and omitted). -/
structure ExtractionResult where
  text : Str
  pages : Nat
  method : String
deriving DecidableEq

/-- Where `extract_text` in `src/extraction/factory.py` dispatches: to the PDF
extractor, to the DOCX extractor (both external collaborator calls), or to the
inline empty image result. -/
inductive Dispatch where
  | pdf
  | docx
  | image (r : ExtractionResult)
deriving DecidableEq

/-- `_PDF_CONTENT_TYPES` from `src/extraction/factory.py`. -/
def PDF_CONTENT_TYPES : List Str := ["application/pdf".data]

/-- `_DOCX_CONTENT_TYPES` from `src/extraction/factory.py`. -/
def DOCX_CONTENT_TYPES : List Str :=
  ["application/vnd.openxmlformats-officedocument.wordprocessingml.document".data]

/-- `_IMAGE_CONTENT_TYPES` from `src/extraction/factory.py`. -/
def IMAGE_CONTENT_TYPES : List Str :=
  ["image/png".data, "image/jpeg".data, "image/webp".data, "image/tiff".data]

/-- `_PDF_EXTENSIONS` from `src/extraction/factory.py`. -/
def PDF_EXTENSIONS : List Str := [".pdf".data]

/-- `_DOCX_EXTENSIONS` from `src/extraction/factory.py`. -/
def DOCX_EXTENSIONS : List Str := [".docx".data]

/-- `_IMAGE_EXTENSIONS` from `src/extraction/factory.py`. -/
def IMAGE_EXTENSIONS : List Str :=
  [".png".data, ".jpg".data, ".jpeg".data, ".webp".data, ".tiff".data]

/-- `os.path.splitext(filename)[-1]`: the extension of the last path segment,
empty when the segment has no dot or only leading dots before its last dot. -/
def splitext_ext (s : Str) : Str :=
  let base := (s.reverse.takeWhile (fun c => c ≠ '/')).reverse
  if base.contains '.' then
    let afterDot := (base.reverse.takeWhile (fun c => c ≠ '.')).reverse
    let pre := base.take (base.length - afterDot.length - 1)
    if pre.any (fun c => c ≠ '.') then '.' :: afterDot else []
  else []

/-- `extract_text` from `src/extraction/factory.py`: dispatch on the stripped,
lowered content type, falling back to the lowered filename extension; image
inputs yield the inline empty result; anything else raises `ValueError`.
The raw `content` bytes are not inspected by the dispatcher and are omitted. -/
def extract_text (content_type filename : String) : Except PyExc Dispatch :=
  let ct := pyLower (pyStrip content_type.data)
  let ext := if filename.data.isEmpty then [] else pyLower (splitext_ext filename.data)
  if PDF_CONTENT_TYPES.contains ct || PDF_EXTENSIONS.contains ext then .ok .pdf
  else if DOCX_CONTENT_TYPES.contains ct || DOCX_EXTENSIONS.contains ext then .ok .docx
  else if IMAGE_CONTENT_TYPES.contains ct || IMAGE_EXTENSIONS.contains ext then
    .ok (.image { text := [], pages := 1, method := "none" })
  else
    .error (.valueError ("Unsupported file type: content_type='" ++ content_type ++
      "', filename='" ++ filename ++ "'"))

-- ---------------------------------------------------------------------------
-- src/providers/factory.py
-- ---------------------------------------------------------------------------

/-- The provider implementations `_create_provider` can construct.  Only
OpenRouter exists; it is built from the configured api key and base url. -/
inductive ProviderInstance where
  | openrouter (api_key : String) (base_url : String)
deriving DecidableEq

/-- `_create_provider` from `src/providers/factory.py`.  The OpenRouter branch
is constructed from `settings`, passed here as the two credential strings. -/
def create_provider (api_key base_url : String) (name : String) :
    Except PyExc ProviderInstance :=
  if name = "openrouter" then .ok (.openrouter api_key base_url)
  else if name = "anthropic" then
    .error (.notImplementedError "Anthropic provider is not yet implemented.")
  else if name = "openai" then
    .error (.notImplementedError "OpenAI provider is not yet implemented.")
  else .error (.valueError ("No implementation for provider: " ++ name))

/-- `get_provider` from `src/providers/factory.py`: the `_instances` singleton
cache is passed and returned explicitly; a fresh process corresponds to the
empty cache. -/
def get_provider (api_key base_url : String)
    (instances : List (String × ProviderInstance)) (ref : ModelRef) :
    Except PyExc (ProviderInstance × List (String × ProviderInstance)) :=
  if !REGISTERED_PROVIDERS.contains ref.provider then
    .error (.valueError ("Unknown provider: " ++ ref.provider))
  else
    match instances.lookup ref.provider with
    | some inst => .ok (inst, instances)
    | none =>
      match create_provider api_key base_url ref.provider with
      | .ok p => .ok (p, instances ++ [(ref.provider, p)])
      | .error e => .error e

-- ---------------------------------------------------------------------------
-- src/llm/schemas.py (the fragment the claims touch)
-- ---------------------------------------------------------------------------

/-- `PersonalInfo` from `src/llm/schemas.py`, reduced to its only required
field; the optional fields are never inspected by the claims. -/
structure PersonalInfo where
  name : String
deriving DecidableEq

/-- `ResumeData` from `src/llm/schemas.py`, reduced to its required field. -/
structure ResumeData where
  personal_info : PersonalInfo
deriving DecidableEq

/-- `LLMExtractionResult` from `src/llm/service.py`. -/
structure LLMExtractionResult where
  success : Bool
  data : Option ResumeData
  validation_errors : List String
  raw_response : String
  input_tokens : Nat
  output_tokens : Nat
deriving DecidableEq

/-- `UsageEntry` from `src/parsing/schemas.py`. -/
structure UsageEntry where
  step : String
  model : String
  input_tokens : Nat
  output_tokens : Nat
deriving DecidableEq

/-- `ParseMetadata` from `src/parsing/schemas.py`. -/
structure ParseMetadata where
  extraction_method : String
  ocr_used : Bool
  pages : Nat
  processing_time_ms : Nat
  usage : List UsageEntry
deriving DecidableEq

/-- `PipelineResult` from `src/pipeline/service.py`. -/
structure PipelineResult where
  success : Bool
  data : Option ResumeData
  metadata : ParseMetadata
  error : Option String
deriving DecidableEq

-- ---------------------------------------------------------------------------
-- src/pipeline/state.py
-- ---------------------------------------------------------------------------

/-- `PipelineState` from `src/pipeline/state.py`.  A missing TypedDict key is
`none` (respectively the `.get` default: `[]` for `text`, `0` for the cursor
indices, `false` for `ocr_attempted`), so those defaults are baked in as field
defaults.  The input fields `content`/`content_type`/`filename` and the chains
are threaded as function parameters instead, since no node mutates them. -/
structure PState where
  ocr_preference : Option String := none
  text : Str := []
  error : Option String := none
  usage : List UsageEntry := []
  ocr_text : Option Str := none
  ocr_attempted : Bool := false
  current_parse_index : Nat := 0
  current_ocr_index : Nat := 0
  parse_result : Option LLMExtractionResult := none
  resume_data : Option ResumeData := none
  text_quality : Option TextQuality := none
  extraction_result : Option ExtractionResult := none
deriving DecidableEq

/-- Python truthiness of a string: non-empty. -/
def truthyStr (s : String) : Bool := !s.data.isEmpty

/-- Python truthiness of `state.get("error")`: present and non-empty. -/
def errTruthy : Option String → Bool
  | none => false
  | some m => truthyStr m

-- ---------------------------------------------------------------------------
-- Collaborator behaviours (what the external calls return in one run)
-- ---------------------------------------------------------------------------

/-- What `extract_text` does in this run, as observed by `extract_node`:
an `ExtractionResult`, a raised `ExtractionError` (caught by the node), or
another raised exception (uncaught). -/
inductive ExtractBehavior where
  | result (r : ExtractionResult)
  | extractionErr (message : String)
  | raise (e : PyExc)

/-- What `ocr_extract` does for one OCR chain entry in this run. -/
inductive OcrBehavior where
  | success (text : Str) (pages input_tokens output_tokens : Nat)
  | raise (e : PyExc)

/-- What `extract_resume_data` does for one parse chain entry in this run:
a returned `LLMExtractionResult` (success or validation failure), or a raised
exception. -/
inductive ParseBehavior where
  | result (r : LLMExtractionResult)
  | raise (e : PyExc)

-- ---------------------------------------------------------------------------
-- src/pipeline/nodes.py
-- ---------------------------------------------------------------------------

/-- `extract_node` from `src/pipeline/nodes.py`: record the extraction result,
its quality score and the working text; an `ExtractionError` becomes a state
error with empty text; any other exception propagates.  (`score_text_quality`
is imported by `nodes.py` but absent from `src/extraction/quality.py`; it is
modelled as `score_quality` applied to the extracted text.) -/
def extract_node (b : ExtractBehavior) (s : PState) : Except PyExc PState :=
  match b with
  | .result r =>
    .ok { s with extraction_result := some r
                 text_quality := some (score_quality r.text)
                 text := r.text }
  | .extractionErr msg => .ok { s with error := some msg, text := [] }
  | .raise e => .error e

/-- `check_ocr_node` from `src/pipeline/nodes.py`: a no-op routing node. -/
def check_ocr_node (s : PState) : PState := s

/-- The usage-ledger entry `ocr_node` records for one attempt. -/
def ocrUsageEntry (ref : ModelRef) (input_tokens output_tokens : Nat) : UsageEntry :=
  { step := "ocr", model := ref.model, input_tokens := input_tokens,
    output_tokens := output_tokens }

/-- The `while` loop of `ocr_node`, over the chain entries from the current
cursor on.  Returns the OCR text (none on exhaustion), the usage entries
appended this run, and how many entries failed (= how far the cursor moved). -/
def ocrTry : List (ModelRef × OcrBehavior) →
    Except PyExc (Option Str × List UsageEntry × Nat)
  | [] => .ok (none, [], 0)
  | (ref, b) :: rest =>
    match b with
    | .success t _pages it ot => .ok (some t, [ocrUsageEntry ref it ot], 0)
    | .raise (.providerError _) =>
      match ocrTry rest with
      | .ok (t, u, k) => .ok (t, ocrUsageEntry ref 0 0 :: u, k + 1)
      | .error e => .error e
    | .raise e => .error e

/-- `ocr_node` from `src/pipeline/nodes.py`: try chain entries starting at
`current_ocr_index`; each `ProviderError` records a zero-usage "ocr" entry and
advances the cursor; success records the real usage; exhaustion leaves
`ocr_text` as `none`.  Either way `ocr_attempted` becomes true. -/
def ocr_node (chain : List (ModelRef × OcrBehavior)) (s : PState) : Except PyExc PState :=
  match ocrTry (chain.drop s.current_ocr_index) with
  | .ok (t, u, k) =>
    .ok { s with ocr_text := t
                 ocr_attempted := true
                 usage := s.usage ++ u
                 current_ocr_index := s.current_ocr_index + k }
  | .error e => .error e

/-- `check_ocr_quality_node` from `src/pipeline/nodes.py`: the OCR text
replaces the working text only when strictly longer.  (Python's truthiness
guard `ocr_text and ...` is subsumed: an empty or missing OCR text can never
be strictly longer.) -/
def check_ocr_quality_node (s : PState) : PState :=
  match s.ocr_text with
  | some t => if s.text.length < t.length then { s with text := t } else s
  | none => s

/-- `parse_node` from `src/pipeline/nodes.py`: no-op when an error is already
recorded; otherwise run the current parse chain entry, recording its usage;
a `ProviderError` is converted into a failed `LLMExtractionResult` with a
zero-usage entry; any other exception propagates. -/
def parse_node (chain : List (ModelRef × ParseBehavior)) (s : PState) :
    Except PyExc PState :=
  if errTruthy s.error then .ok s
  else
    match chain[s.current_parse_index]? with
    | none => .error .indexError
    | some (ref, b) =>
      match b with
      | .result r =>
        .ok { s with parse_result := some r
                     usage := s.usage ++
                       [{ step := "parse", model := ref.model,
                          input_tokens := r.input_tokens,
                          output_tokens := r.output_tokens }] }
      | .raise (.providerError msg) =>
        .ok { s with parse_result := some
                       { success := false, data := none,
                         validation_errors := [msg], raw_response := "",
                         input_tokens := 0, output_tokens := 0 }
                     usage := s.usage ++
                       [{ step := "parse", model := ref.model,
                          input_tokens := 0, output_tokens := 0 }] }
      | .raise e => .error e

/-- The aggregate error `check_parse_node` records on chain exhaustion. -/
def exhaustMessage (errors : List String) : String :=
  "All parse models exhausted. Last errors: " ++ String.intercalate "; " errors

/-- `check_parse_node` from `src/pipeline/nodes.py`. -/
def check_parse_node (chain : List (ModelRef × ParseBehavior)) (s : PState) : PState :=
  if errTruthy s.error then s
  else
    match s.parse_result with
    | none => { s with error := some "No parse result available" }
    | some pr =>
      if pr.success && pr.data.isSome then { s with resume_data := pr.data }
      else if s.current_parse_index + 1 < chain.length then
        { s with current_parse_index := s.current_parse_index + 1 }
      else { s with error := some (exhaustMessage pr.validation_errors) }

-- ---------------------------------------------------------------------------
-- src/pipeline/graph.py
-- ---------------------------------------------------------------------------

/-- `route_ocr` from `src/pipeline/graph.py`. -/
def route_ocr (ocr_chain : List ModelRef) (s : PState) : String :=
  if errTruthy s.error then "parse"
  else if s.ocr_preference.getD "auto" = "skip" then "parse"
  else if ocr_chain.isEmpty then "parse"
  else if s.ocr_preference.getD "auto" = "force" then "ocr"
  else
    match s.text_quality with
    | some q => if q.sufficient then "parse" else "ocr"
    | none => "ocr"

/-- `route_parse_result` from `src/pipeline/graph.py`. -/
def route_parse_result (s : PState) : String :=
  if s.resume_data.isSome then "done"
  else if errTruthy s.error then "fail"
  else "retry"

/-- The `check_parse → parse` retry cycle of the compiled graph: run
`parse_node` then `check_parse_node`, loop while routing says "retry".
`fuel` bounds the iterations; `chain.length` always suffices because the
cursor strictly advances on every retry. -/
def run_parse_stage (chain : List (ModelRef × ParseBehavior)) :
    Nat → PState → Except PyExc PState
  | 0, s =>
    match parse_node chain s with
    | .ok s1 => .ok (check_parse_node chain s1)
    | .error e => .error e
  | fuel + 1, s =>
    match parse_node chain s with
    | .ok s1 =>
      let s2 := check_parse_node chain s1
      if route_parse_result s2 = "retry" then run_parse_stage chain fuel s2
      else .ok s2
    | .error e => .error e

-- ---------------------------------------------------------------------------
-- src/pipeline/service.py
-- ---------------------------------------------------------------------------

/-- The `initial_state` dict built by `run_pipeline`. -/
def initial_state (pref : String) : PState := { ocr_preference := some pref }

/-- One full traversal of the compiled graph (`build_pipeline` wiring):
extract → check_ocr → (conditional) ocr → check_ocr_quality → parse cycle. -/
def pipeline_state (extB : ExtractBehavior) (pref : String)
    (ocrChain : List (ModelRef × OcrBehavior))
    (parseChain : List (ModelRef × ParseBehavior)) : Except PyExc PState :=
  match extract_node extB (initial_state pref) with
  | .error e => .error e
  | .ok s1 =>
    let s1 := check_ocr_node s1
    match
      (if route_ocr (ocrChain.map Prod.fst) s1 = "ocr" then
        match ocr_node ocrChain s1 with
        | .ok sA => .ok (check_ocr_quality_node sA)
        | .error e => .error e
      else .ok s1 : Except PyExc PState) with
    | .error e => .error e
    | .ok s2 => run_parse_stage parseChain parseChain.length s2

/-- The final-result assembly at the end of `run_pipeline` in
`src/pipeline/service.py` (`processing_time_ms` is literally 0 there). -/
def assemble_result (s : PState) : PipelineResult :=
  let ocr_text_used :=
    s.ocr_attempted &&
      (match s.ocr_text with
       | some t => !t.isEmpty && decide (s.text = t)
       | none => false)
  { success := s.resume_data.isSome
    data := s.resume_data
    metadata :=
      { extraction_method := if ocr_text_used then "ocr" else "algorithmic"
        ocr_used := ocr_text_used
        pages := match s.extraction_result with | some er => er.pages | none => 0
        processing_time_ms := 0
        usage := s.usage }
    error := s.error }

/-- `run_pipeline` from `src/pipeline/service.py`, as a function of the
collaborator behaviours for this run. -/
def run_pipeline (extB : ExtractBehavior) (pref : String)
    (ocrChain : List (ModelRef × OcrBehavior))
    (parseChain : List (ModelRef × ParseBehavior)) : Except PyExc PipelineResult :=
  match pipeline_state extB pref ocrChain parseChain with
  | .ok s => .ok (assemble_result s)
  | .error e => .error e

-- ---------------------------------------------------------------------------
-- src/llm/validation.py
-- ---------------------------------------------------------------------------

/-- The backtick character. -/
def btick : Char := Char.ofNat 96

/-- The regex `^\s*`-fence`(?:json)?\s*$` of `_strip_markdown_fences`, applied
to one line: optional whitespace, three backticks, optionally the word json,
then only whitespace to the end. -/
def matchFence (line : Str) : Bool :=
  match line.dropWhile isPyWs with
  | c1 :: c2 :: c3 :: rest =>
    c1 = btick && c2 = btick && c3 = btick &&
      (rest.all isPyWs ||
        (match rest with
         | 'j' :: 's' :: 'o' :: 'n' :: rest2 => rest2.all isPyWs
         | _ => false))
  | _ => false

/-- Python `text.endswith("-triple-backtick-")`. -/
def endsWithBackticks (s : Str) : Bool :=
  decide (s.reverse.take 3 = [btick, btick, btick])

/-- `_strip_markdown_fences` from `src/llm/validation.py`: strip the text,
drop the first line when it is an opening fence, drop a trailing triple
backtick with trailing-whitespace cleanup, and strip again. -/
def strip_markdown_fences (raw : Str) : Str :=
  let text := pyStrip raw
  let text :=
    if matchFence ((splitOnChar '\n' text).headD []) then
      joinWith '\n' (splitOnChar '\n' text).tail
    else text
  let text :=
    if endsWithBackticks text then pyRStrip (text.take (text.length - 3))
    else text
  pyStrip text

/-- The `wrap_in_fences` operation of the spec's round-trip property: wrap a
payload in a ```json ... ``` fence. -/
def wrap_in_fences (j : Str) : Str := "```json\n".data ++ j ++ "\n```".data

-- ---------------------------------------------------------------------------
-- json.loads (the JSON acceptor the validator delegates to)
-- ---------------------------------------------------------------------------

/-- A parsed JSON value (numbers carry no payload: no embedded code inspects
the numeric value). -/
inductive JsonVal where
  | null
  | tru
  | fls
  | str (s : Str)
  | num
  | arr (elems : List JsonVal)
  | obj (members : List (Str × JsonVal))

/-- JSON insignificant whitespace (RFC 8259). -/
def isJsonWs (c : Char) : Bool := c = ' ' || c = '\t' || c = '\n' || c = '\r'

/-- Skip JSON whitespace. -/
def skipJWs (s : Str) : Str := s.dropWhile isJsonWs

/-- Hex digit test for `\uXXXX` escapes. -/
def isHexDigit (c : Char) : Bool :=
  c.isDigit || ('a' ≤ c && c ≤ 'f') || ('A' ≤ c && c ≤ 'F')

/-- Value of a hex digit. -/
def hexVal (c : Char) : Nat :=
  if c.isDigit then c.toNat - 48
  else if 'a' ≤ c && c ≤ 'f' then c.toNat - 87
  else c.toNat - 55

/-- The character a simple JSON escape denotes. -/
def unescapeChar (e : Char) : Char :=
  if e = 'b' then '\x08'
  else if e = 'f' then '\x0c'
  else if e = 'n' then '\n'
  else if e = 'r' then '\r'
  else if e = 't' then '\t'
  else e

/-- The character a `\uXXXX` escape denotes (surrogate pairs are kept as two
separate code units; no embedded code inspects decoded string contents). -/
def hexChar (h1 h2 h3 h4 : Char) : Char :=
  Char.ofNat (hexVal h1 * 4096 + hexVal h2 * 256 + hexVal h3 * 16 + hexVal h4)

/-- JSON string body, entered after the opening quote: returns the decoded
content and the input after the closing quote.  Raw control characters are
rejected (json.loads strict mode). -/
def pStringBody : Str → Option (Str × Str)
  | [] => none
  | c :: rest =>
    if c = '"' then some ([], rest)
    else if c = '\\' then
      match rest with
      | [] => none
      | e :: rest1 =>
        if e = '"' || e = '\\' || e = '/' || e = 'b' || e = 'f' || e = 'n' || e = 'r' || e = 't' then
          match pStringBody rest1 with
          | some (cs, r) => some (unescapeChar e :: cs, r)
          | none => none
        else if e = 'u' then
          match rest1 with
          | h1 :: h2 :: h3 :: h4 :: rest2 =>
            if isHexDigit h1 && isHexDigit h2 && isHexDigit h3 && isHexDigit h4 then
              match pStringBody rest2 with
              | some (cs, r) => some (hexChar h1 h2 h3 h4 :: cs, r)
              | none => none
            else none
          | _ => none
        else none
    else if c.toNat < 32 then none
    else
      match pStringBody rest with
      | some (cs, r) => some (c :: cs, r)
      | none => none

/-- A non-empty digit run: returns the digits and the rest. -/
def digits1 (s : Str) : Option (Str × Str) :=
  let d := s.takeWhile Char.isDigit
  if d.isEmpty then none else some (d, s.dropWhile Char.isDigit)

/-- Skip an optional leading minus sign. -/
def dropSign (s : Str) : Str := match s with | '-' :: r => r | _ => s

/-- The integer part of a JSON number: `0`, or a digit run not starting
with 0 (json.loads rejects leading zeros). -/
def pInt (s1 : Str) : Option Str :=
  match s1 with
  | '0' :: r => some r
  | c :: _ => if c.isDigit then some (s1.dropWhile Char.isDigit) else none
  | [] => none

/-- The optional fraction part `(\.[0-9]+)?`: returns the input after it. -/
def pFrac (intEnd : Str) : Option Str :=
  match intEnd with
  | '.' :: r => (digits1 r).map Prod.snd
  | _ => some intEnd

/-- Skip an optional exponent sign. -/
def dropExpSign (r : Str) : Str :=
  match r with
  | c2 :: r' => if c2 = '+' || c2 = '-' then r' else r
  | [] => r

/-- The optional exponent part `([eE][+-]?[0-9]+)?`: returns the input
after it. -/
def pExpPart (fracEnd : Str) : Option Str :=
  match fracEnd with
  | c :: r =>
    if c = 'e' || c = 'E' then (digits1 (dropExpSign r)).map Prod.snd
    else some fracEnd
  | [] => some fracEnd

/-- A JSON number `-?(0|[1-9][0-9]*)(\.[0-9]+)?([eE][+-]?[0-9]+)?`: returns
the input after the number. -/
def pNumber (s : Str) : Option Str :=
  match pInt (dropSign s) with
  | none => none
  | some intEnd =>
    match pFrac intEnd with
    | none => none
    | some fracEnd => pExpPart fracEnd

/-- Consume an expected literal tail: `stripLit lit s = some r` iff
`s = lit ++ r`. -/
def stripLit : Str → Str → Option Str
  | [], s => some s
  | l :: lt, c :: ct => if c = l then stripLit lt ct else none
  | _ :: _, [] => none

mutual

/-- A JSON value, starting at its first character; returns the value and the
unconsumed input.  Fuel bounds the recursion; `length + 1` always suffices. -/
def pVal : Nat → Str → Option (JsonVal × Str)
  | 0, _ => none
  | fuel + 1, s =>
    match s with
    | '\x7b' :: rest =>
      (match skipJWs rest with
       | '\x7d' :: r => some (.obj [], r)
       | t =>
         match pMembers fuel t with
         | some (ms, r) => some (.obj ms, r)
         | none => none)
    | '[' :: rest =>
      (match skipJWs rest with
       | ']' :: r => some (.arr [], r)
       | t =>
         match pElems fuel t with
         | some (es, r) => some (.arr es, r)
         | none => none)
    | '"' :: rest =>
      (match pStringBody rest with
       | some (cs, r) => some (.str cs, r)
       | none => none)
    | c :: rest =>
      if c = 't' then
        match stripLit "rue".data rest with
        | some r => some (.tru, r)
        | none => none
      else if c = 'f' then
        match stripLit "alse".data rest with
        | some r => some (.fls, r)
        | none => none
      else if c = 'n' then
        match stripLit "ull".data rest with
        | some r => some (.null, r)
        | none => none
      else if c = '-' || c.isDigit then
        match pNumber (c :: rest) with
        | some r => some (.num, r)
        | none => none
      else none
    | [] => none

/-- Object members, starting at the first key's opening quote; consumes up to
and including the closing brace. -/
def pMembers : Nat → Str → Option (List (Str × JsonVal) × Str)
  | 0, _ => none
  | fuel + 1, s =>
    match s with
    | '"' :: rest =>
      (match pStringBody rest with
       | some (key, r1) =>
         (match skipJWs r1 with
          | ':' :: r3 =>
            (match pVal fuel (skipJWs r3) with
             | some (v, r4) =>
               (match skipJWs r4 with
                | ',' :: r6 =>
                  (match pMembers fuel (skipJWs r6) with
                   | some (ms, r) => some ((key, v) :: ms, r)
                   | none => none)
                | '\x7d' :: r7 => some ([(key, v)], r7)
                | _ => none)
             | none => none)
          | _ => none)
       | none => none)
    | _ => none

/-- Array elements, starting at the first element; consumes up to and
including the closing bracket. -/
def pElems : Nat → Str → Option (List JsonVal × Str)
  | 0, _ => none
  | fuel + 1, s =>
    match pVal fuel s with
    | some (v, r1) =>
      (match skipJWs r1 with
       | ',' :: r2 =>
         (match pElems fuel (skipJWs r2) with
          | some (es, r) => some (v :: es, r)
          | none => none)
       | ']' :: r3 => some ([v], r3)
       | _ => none)
    | none => none

end

/-- `json.loads` as an acceptor: optional whitespace, one value, optional
whitespace, nothing else.  (The non-standard `NaN`/`Infinity` extensions of
Python's decoder are not modelled; "valid JSON" means RFC 8259 JSON.) -/
def json_loads (s : Str) : Option JsonVal :=
  match pVal (s.length + 1) (skipJWs s) with
  | some (v, r) => if (skipJWs r).isEmpty then some v else none
  | none => none

/-- Whether a text is valid JSON for `json.loads`. -/
def isValidJson (s : Str) : Bool := (json_loads s).isSome

-- ---------------------------------------------------------------------------
-- ResumeData.model_validate (pydantic) and validate_llm_response
-- ---------------------------------------------------------------------------

/-- Object member lookup with Python-dict semantics: the last duplicate key
wins. -/
def objGet : List (Str × JsonVal) → Str → Option JsonVal
  | [], _ => none
  | (k, v) :: rest, key =>
    match objGet rest key with
    | some w => some w
    | none => if k = key then some v else none

/-- `ResumeData.model_validate` (pydantic, external library), reduced to the
schema fragment the claims touch: the input must be an object, whose required
`personal_info` member is an object with a required string `name`; all other
schema fields are optional and extras are ignored.  Errors are rendered as
the "path: message" strings of `_format_validation_errors`. -/
def resume_model_validate (j : JsonVal) : Except (List String) ResumeData :=
  match j with
  | .obj ms =>
    (match objGet ms "personal_info".data with
     | some (.obj pms) =>
       (match objGet pms "name".data with
        | some (.str n) => .ok { personal_info := { name := String.mk n } }
        | some _ => .error ["personal_info.name: Input should be a valid string"]
        | none => .error ["personal_info.name: Field required"])
     | some _ =>
       .error ["personal_info: Input should be a valid dictionary or instance of PersonalInfo"]
     | none => .error ["personal_info: Field required"])
  | _ => .error ["Input should be a valid dictionary or instance of ResumeData"]

/-- `ValidationResult` from `src/llm/validation.py`. -/
structure ValidationResult where
  success : Bool
  data : Option ResumeData
  errors : List String
  raw_json : Str
deriving DecidableEq

/-- `validate_llm_response` from `src/llm/validation.py`: strip fences, parse
JSON (a syntax failure becomes the single "Invalid JSON" error; the Python
message's exception detail is dropped), then schema-validate. -/
def validate_llm_response (raw_output : Str) : ValidationResult :=
  match json_loads (strip_markdown_fences raw_output) with
  | none => { success := false, data := none, errors := ["Invalid JSON"], raw_json := raw_output }
  | some parsed =>
    match resume_model_validate parsed with
    | .ok d => { success := true, data := some d, errors := [], raw_json := raw_output }
    | .error es => { success := false, data := none, errors := es, raw_json := raw_output }

-- ---------------------------------------------------------------------------
-- Derived notions used to state the claims
-- ---------------------------------------------------------------------------

/-- The state `extract_node` produces from a successful extraction. -/
def after_extract (extR : ExtractionResult) (pref : String) : PState :=
  { initial_state pref with
      extraction_result := some extR
      text_quality := some (score_quality extR.text)
      text := extR.text }

/-- The usage-ledger entry one parse attempt records (real tokens for a
returned result, zero tokens for a caught `ProviderError`). -/
def parseUsageEntry (ref : ModelRef) (b : ParseBehavior) : UsageEntry :=
  match b with
  | .result r => { step := "parse", model := ref.model,
                   input_tokens := r.input_tokens, output_tokens := r.output_tokens }
  | .raise _ => { step := "parse", model := ref.model, input_tokens := 0, output_tokens := 0 }

/-- The `parse_result` one parse attempt leaves in the state. -/
def parseResultOf (b : ParseBehavior) : LLMExtractionResult :=
  match b with
  | .result r => r
  | .raise (.providerError msg) =>
    { success := false, data := none, validation_errors := [msg], raw_response := "",
      input_tokens := 0, output_tokens := 0 }
  | .raise _ =>
    { success := false, data := none, validation_errors := [], raw_response := "",
      input_tokens := 0, output_tokens := 0 }

/-- A parse attempt that fails but is absorbed by the retry logic: a returned
result that is unsuccessful or has no data, or a raised `ProviderError`. -/
def ParseRecoverableFail (b : ParseBehavior) : Prop :=
  match b with
  | .result r => r.success = false ∨ r.data = none
  | .raise (.providerError _) => True
  | .raise _ => False

/-- A parse attempt whose exception, if any, is the caught `ProviderError`. -/
def ParseNoHardRaise (b : ParseBehavior) : Prop :=
  match b with
  | .result _ => True
  | .raise (.providerError _) => True
  | .raise _ => False

/-- An OCR attempt whose exception, if any, is the caught `ProviderError`. -/
def OcrNoHardRaise (b : OcrBehavior) : Prop :=
  match b with
  | .success _ _ _ _ => True
  | .raise (.providerError _) => True
  | .raise _ => False

/-- An OCR attempt that raises `ProviderError`. -/
def OcrProvFail (b : OcrBehavior) : Prop :=
  match b with
  | .raise (.providerError _) => True
  | _ => False

/-- Dummy entry for `List.getLastD` over parse chains. -/
def dummyParseEntry : ModelRef × ParseBehavior := (⟨"", ""⟩, .raise .indexError)

/-- The state update `ocr_node` merges when its loop finishes with OCR text
`t` (none on exhaustion), freshly recorded entries `u`, and `k` failed
attempts. -/
def ocrStageState (s : PState) (t : Option Str) (u : List UsageEntry) (k : Nat) : PState :=
  { s with ocr_text := t
           ocr_attempted := true
           usage := s.usage ++ u
           current_ocr_index := s.current_ocr_index + k }

-- ---------------------------------------------------------------------------
-- Theorems
-- ---------------------------------------------------------------------------

-- Helper lemmas about the pipeline step functions.

/-- The characters a successful `pVal` run can end on (closing brackets,
closing quote, the last letter of a literal, or a digit): used to show the
consumed value text never ends in whitespace or a backtick. -/
def isEnderC (c : Char) : Bool :=
  c = '\x7d' || c = ']' || c = '"' || c = 'e' || c = 'l' || c.isDigit

/-- The characters a JSON value can start with: used to show the consumed
value text never starts with whitespace or a backtick. -/
def isStarterC (c : Char) : Bool :=
  c = '\x7b' || c = '[' || c = '"' || c = 't' || c = 'f' || c = 'n' || c = '-' || c.isDigit

theorem errTruthy_exhaust (es : List String) :
    errTruthy (some (exhaustMessage es)) = true := rfl

theorem parseUsageEntry_step (ref : ModelRef) (b : ParseBehavior) :
    (parseUsageEntry ref b).step = "parse" := by
  cases b <;> rfl

theorem recoverableFail_noHard (b : ParseBehavior) (hb : ParseRecoverableFail b) :
    ParseNoHardRaise b := by
  rcases b with r | e
  · trivial
  · cases e <;> simp_all [ParseRecoverableFail, ParseNoHardRaise]

theorem recoverableFail_block (b : ParseBehavior) (hb : ParseRecoverableFail b) :
    ((parseResultOf b).success && (parseResultOf b).data.isSome) = false := by
  rcases b with r | e
  · rcases hb with h | h <;> simp [parseResultOf, h]
  · cases e with
    | providerError m => simp [parseResultOf]
    | notImplementedError m => simp [ParseRecoverableFail] at hb
    | valueError m => simp [ParseRecoverableFail] at hb
    | indexError => simp [ParseRecoverableFail] at hb

theorem parse_node_step (chain : List (ModelRef × ParseBehavior)) (s : PState)
    (ref : ModelRef) (b : ParseBehavior)
    (h1 : errTruthy s.error = false)
    (hget : chain[s.current_parse_index]? = some (ref, b))
    (hb : ParseNoHardRaise b) :
    parse_node chain s =
      .ok { s with parse_result := some (parseResultOf b),
                   usage := s.usage ++ [parseUsageEntry ref b] } := by
  rcases b with r | e
  · simp [parse_node, h1, hget, parseResultOf, parseUsageEntry]
  · cases e with
    | providerError m => simp [parse_node, h1, hget, parseResultOf, parseUsageEntry]
    | notImplementedError m => simp [ParseNoHardRaise] at hb
    | valueError m => simp [ParseNoHardRaise] at hb
    | indexError => simp [ParseNoHardRaise] at hb

theorem check_parse_node_success (chain : List (ModelRef × ParseBehavior)) (s : PState)
    (pr : LLMExtractionResult)
    (h1 : errTruthy s.error = false) (hpr : s.parse_result = some pr)
    (hs : pr.success = true) (hd : pr.data.isSome = true) :
    check_parse_node chain s = { s with resume_data := pr.data } := by
  simp [check_parse_node, h1, hpr, hs, hd]

theorem check_parse_node_retry (chain : List (ModelRef × ParseBehavior)) (s : PState)
    (pr : LLMExtractionResult)
    (h1 : errTruthy s.error = false) (hpr : s.parse_result = some pr)
    (hfail : (pr.success && pr.data.isSome) = false)
    (hlt : s.current_parse_index + 1 < chain.length) :
    check_parse_node chain s = { s with current_parse_index := s.current_parse_index + 1 } := by
  simp [check_parse_node, h1, hpr, hfail, hlt]

theorem check_parse_node_exhaust (chain : List (ModelRef × ParseBehavior)) (s : PState)
    (pr : LLMExtractionResult)
    (h1 : errTruthy s.error = false) (hpr : s.parse_result = some pr)
    (hfail : (pr.success && pr.data.isSome) = false)
    (hge : ¬ s.current_parse_index + 1 < chain.length) :
    check_parse_node chain s =
      { s with error := some (exhaustMessage pr.validation_errors) } := by
  simp [check_parse_node, h1, hpr, hfail, hge]

theorem getLastD_indep {α : Type} (l : List α) (h : l ≠ []) (a b : α) :
    l.getLastD a = l.getLastD b := by
  cases l with
  | nil => exact absurd rfl h
  | cons x xs => simp [List.getLastD]

/-- The parse retry loop when every remaining chain entry fails recoverably:
one "parse" usage entry per remaining entry, in order, and the chain-exhausted
error aggregating the last attempt's validation errors. -/
theorem run_parse_stage_allFail (chain : List (ModelRef × ParseBehavior)) :
    ∀ (rest : List (ModelRef × ParseBehavior)) (fuel i : Nat) (s : PState),
      chain.drop i = rest → rest ≠ [] → rest.length ≤ fuel + 1 →
      (∀ e ∈ rest, ParseRecoverableFail e.2) →
      s.error = none → s.resume_data = none → s.current_parse_index = i →
      ∃ s', run_parse_stage chain fuel s = .ok s' ∧
        s'.usage = s.usage ++ rest.map (fun e => parseUsageEntry e.1 e.2) ∧
        s'.resume_data = none ∧
        s'.error = some (exhaustMessage
          (parseResultOf (rest.getLastD dummyParseEntry).2).validation_errors) ∧
        s'.text = s.text ∧ s'.ocr_text = s.ocr_text ∧
        s'.ocr_attempted = s.ocr_attempted ∧
        s'.extraction_result = s.extraction_result := by
  intro rest
  induction rest with
  | nil => intro fuel i s _ h2; exact absurd rfl h2
  | cons e rest' ih =>
    intro fuel i s hdrop _ hfuel hfails herr hres hidx
    obtain ⟨ref, b⟩ := e
    have herrb : errTruthy s.error = false := by simp [herr, errTruthy]
    have hget : chain[s.current_parse_index]? = some (ref, b) := by
      have h := (List.getElem?_drop chain i 0).symm
      rw [hdrop] at h
      simpa [hidx] using h
    have hb : ParseRecoverableFail b := hfails _ (List.mem_cons_self _ _)
    have hstep := parse_node_step chain s ref b herrb hget (recoverableFail_noHard _ hb)
    have hlen : chain.length - i = rest'.length + 1 := by
      have h := List.length_drop i chain
      rw [hdrop] at h
      simp at h
      omega
    have hblock := recoverableFail_block b hb
    set s1 : PState :=
      { s with parse_result := some (parseResultOf b),
               usage := s.usage ++ [parseUsageEntry ref b] } with hs1
    have herrb1 : errTruthy s1.error = false := by simp [hs1, errTruthy, herr]
    have hpr1 : s1.parse_result = some (parseResultOf b) := by simp [hs1]
    cases rest' with
    | nil =>
      -- last chain entry: exhaustion
      simp only [List.length_nil] at hlen
      have hge : ¬ s1.current_parse_index + 1 < chain.length := by
        have : s1.current_parse_index = i := by simp [hs1, hidx]
        rw [this]; omega
      have hcheck := check_parse_node_exhaust chain s1 (parseResultOf b) herrb1 hpr1 hblock hge
      set sF : PState := { s1 with error := some (exhaustMessage (parseResultOf b).validation_errors) }
        with hsF
      have hfields : sF.usage = s.usage ++
            [(ref, b)].map (fun e => parseUsageEntry e.1 e.2) ∧
          sF.resume_data = none ∧
          sF.error = some (exhaustMessage
            (parseResultOf (((ref, b) :: []).getLastD dummyParseEntry).2).validation_errors) ∧
          sF.text = s.text ∧ sF.ocr_text = s.ocr_text ∧
          sF.ocr_attempted = s.ocr_attempted ∧
          sF.extraction_result = s.extraction_result := by
        refine ⟨?_, ?_, ?_, ?_, ?_, ?_, ?_⟩ <;> simp [hsF, hs1, hres, List.getLastD]
      cases fuel with
      | zero =>
        refine ⟨sF, ?_, hfields.1, hfields.2.1, hfields.2.2.1, hfields.2.2.2.1,
          hfields.2.2.2.2.1, hfields.2.2.2.2.2.1, hfields.2.2.2.2.2.2⟩
        simp only [run_parse_stage, hstep]
        rw [hcheck]
      | succ f =>
        have hroute : route_parse_result sF = "fail" := by
          simp [route_parse_result, hsF, hs1, hres, errTruthy_exhaust]
        refine ⟨sF, ?_, hfields.1, hfields.2.1, hfields.2.2.1, hfields.2.2.2.1,
          hfields.2.2.2.2.1, hfields.2.2.2.2.2.1, hfields.2.2.2.2.2.2⟩
        simp only [run_parse_stage, hstep]
        rw [hcheck, hroute]
        simp
    | cons e2 rest'' =>
      -- more entries remain: retry
      simp only [List.length_cons] at hlen
      have hlt : s1.current_parse_index + 1 < chain.length := by
        have : s1.current_parse_index = i := by simp [hs1, hidx]
        rw [this]; omega
      have hcheck := check_parse_node_retry chain s1 (parseResultOf b) herrb1 hpr1 hblock hlt
      cases fuel with
      | zero => simp only [List.length_cons] at hfuel; omega
      | succ f =>
        set s2 : PState := { s1 with current_parse_index := s1.current_parse_index + 1 }
          with hs2
        have hroute : route_parse_result s2 = "retry" := by
          simp [route_parse_result, hs2, hs1, hres, errTruthy, herr]
        have hdrop' : chain.drop (i + 1) = e2 :: rest'' := by
          have h2 := List.drop_drop 1 i chain
          rw [hdrop] at h2
          simpa using h2.symm
        obtain ⟨s', h1', h2', h3', h4', h5', h6', h7', h8'⟩ :=
          ih f (i + 1) s2 hdrop' (by simp)
            (by simp only [List.length_cons] at hfuel ⊢; omega)
            (fun x hx => hfails x (List.mem_cons_of_mem _ hx))
            (by simp [hs2, hs1, herr]) (by simp [hs2, hs1, hres])
            (by simp [hs2, hs1, hidx])
        refine ⟨s', ?_, ?_, h3', ?_, ?_, ?_, ?_, ?_⟩
        · simp only [run_parse_stage, hstep]
          rw [hcheck, hroute]
          simpa using h1'
        · rw [h2']; simp [hs2, hs1, List.append_assoc]
        · rw [h4']
          rw [show ((ref, b) :: e2 :: rest'').getLastD dummyParseEntry =
              (e2 :: rest'').getLastD (ref, b) from by simp [List.getLastD]]
          rw [getLastD_indep (e2 :: rest'') (by simp) (ref, b) dummyParseEntry]
        · rw [h5']
        · rw [h6']
        · rw [h7']
        · rw [h8']

/-- The parse retry loop when the first `pre.length` entries fail recoverably
and the next entry returns a successful result: one "parse" usage entry per
attempt in chain order, the successful data recorded, and no error. -/
theorem run_parse_stage_success (chain : List (ModelRef × ParseBehavior)) :
    ∀ (pre : List (ModelRef × ParseBehavior)) (fuel i : Nat) (ref : ModelRef)
      (rN : LLMExtractionResult) (rest2 : List (ModelRef × ParseBehavior)) (s : PState),
      chain.drop i = pre ++ (ref, .result rN) :: rest2 →
      pre.length ≤ fuel →
      (∀ e ∈ pre, ParseRecoverableFail e.2) →
      rN.success = true → rN.data.isSome = true →
      s.error = none → s.resume_data = none → s.current_parse_index = i →
      ∃ s', run_parse_stage chain fuel s = .ok s' ∧
        s'.usage = s.usage ++
          (pre.map (fun e => parseUsageEntry e.1 e.2) ++ [parseUsageEntry ref (.result rN)]) ∧
        s'.resume_data = rN.data ∧ s'.error = none ∧
        s'.text = s.text ∧ s'.ocr_text = s.ocr_text ∧
        s'.ocr_attempted = s.ocr_attempted ∧
        s'.extraction_result = s.extraction_result := by
  intro pre
  induction pre with
  | nil =>
    intro fuel i ref rN rest2 s hdrop _ _ hsucc hdata herr hres hidx
    have herrb : errTruthy s.error = false := by simp [herr, errTruthy]
    have hget : chain[s.current_parse_index]? = some (ref, .result rN) := by
      have h := (List.getElem?_drop chain i 0).symm
      rw [hdrop] at h
      simpa [hidx] using h
    have hstep := parse_node_step chain s ref (.result rN) herrb hget trivial
    set s1 : PState := { s with parse_result := some (parseResultOf (.result rN)),
                                usage := s.usage ++ [parseUsageEntry ref (.result rN)] } with hs1
    have hcheck := check_parse_node_success chain s1 rN (by simp [hs1, errTruthy, herr])
      (by simp [hs1, parseResultOf]) hsucc hdata
    set sF : PState := { s1 with resume_data := rN.data } with hsF
    have hfields : sF.usage = s.usage ++
          (([] : List (ModelRef × ParseBehavior)).map (fun e => parseUsageEntry e.1 e.2) ++
            [parseUsageEntry ref (.result rN)]) ∧
        sF.resume_data = rN.data ∧ sF.error = none ∧
        sF.text = s.text ∧ sF.ocr_text = s.ocr_text ∧
        sF.ocr_attempted = s.ocr_attempted ∧
        sF.extraction_result = s.extraction_result := by
      refine ⟨?_, ?_, ?_, ?_, ?_, ?_, ?_⟩ <;> simp [hsF, hs1, herr]
    cases fuel with
    | zero =>
      refine ⟨sF, ?_, hfields.1, hfields.2.1, hfields.2.2.1, hfields.2.2.2.1,
        hfields.2.2.2.2.1, hfields.2.2.2.2.2.1, hfields.2.2.2.2.2.2⟩
      simp only [run_parse_stage, hstep]
      rw [hcheck]
    | succ f =>
      have hroute : route_parse_result sF = "done" := by
        have : sF.resume_data.isSome = true := by simp [hsF, hdata]
        simp [route_parse_result, this]
      refine ⟨sF, ?_, hfields.1, hfields.2.1, hfields.2.2.1, hfields.2.2.2.1,
        hfields.2.2.2.2.1, hfields.2.2.2.2.2.1, hfields.2.2.2.2.2.2⟩
      simp only [run_parse_stage, hstep]
      rw [hcheck, hroute]
      simp
  | cons e pre' ih =>
    intro fuel i ref rN rest2 s hdrop hfuel hfails hsucc hdata herr hres hidx
    obtain ⟨refE, bE⟩ := e
    have herrb : errTruthy s.error = false := by simp [herr, errTruthy]
    rw [List.cons_append] at hdrop
    have hget : chain[s.current_parse_index]? = some (refE, bE) := by
      have h := (List.getElem?_drop chain i 0).symm
      rw [hdrop] at h
      simpa [hidx] using h
    have hbE : ParseRecoverableFail bE := hfails _ (List.mem_cons_self _ _)
    have hstep := parse_node_step chain s refE bE herrb hget (recoverableFail_noHard _ hbE)
    have hblock := recoverableFail_block bE hbE
    have hlen : chain.length - i = (pre' ++ (ref, ParseBehavior.result rN) :: rest2).length + 1 := by
      have h := List.length_drop i chain
      rw [hdrop] at h
      simp at h ⊢
      omega
    set s1 : PState := { s with parse_result := some (parseResultOf bE),
                                usage := s.usage ++ [parseUsageEntry refE bE] } with hs1
    have herrb1 : errTruthy s1.error = false := by simp [hs1, errTruthy, herr]
    have hpr1 : s1.parse_result = some (parseResultOf bE) := by simp [hs1]
    have hlt : s1.current_parse_index + 1 < chain.length := by
      have hi : s1.current_parse_index = i := by simp [hs1, hidx]
      rw [hi]
      simp only [List.length_append, List.length_cons] at hlen
      omega
    have hcheck := check_parse_node_retry chain s1 (parseResultOf bE) herrb1 hpr1 hblock hlt
    cases fuel with
    | zero => simp only [List.length_cons] at hfuel; omega
    | succ f =>
      set s2 : PState := { s1 with current_parse_index := s1.current_parse_index + 1 }
        with hs2
      have hroute : route_parse_result s2 = "retry" := by
        simp [route_parse_result, hs2, hs1, hres, errTruthy, herr]
      have hdrop' : chain.drop (i + 1) = pre' ++ (ref, ParseBehavior.result rN) :: rest2 := by
        have h2 := List.drop_drop 1 i chain
        rw [hdrop] at h2
        simpa using h2.symm
      obtain ⟨s', h1', h2', h3', h4', h5', h6', h7', h8'⟩ :=
        ih f (i + 1) ref rN rest2 s2 hdrop'
          (by simp only [List.length_cons] at hfuel; omega)
          (fun x hx => hfails x (List.mem_cons_of_mem _ hx))
          hsucc hdata
          (by simp [hs2, hs1, herr]) (by simp [hs2, hs1, hres])
          (by simp [hs2, hs1, hidx])
      refine ⟨s', ?_, ?_, h3', h4', ?_, ?_, ?_, ?_⟩
      · simp only [run_parse_stage, hstep]
        rw [hcheck, hroute]
        simpa using h1'
      · rw [h2']; simp [hs2, hs1, List.append_assoc]
      · rw [h5']
      · rw [h6']
      · rw [h7']
      · rw [h8']

theorem ocrTry_allFail :
    ∀ (l : List (ModelRef × OcrBehavior)), (∀ e ∈ l, OcrProvFail e.2) →
      ocrTry l = .ok (none, l.map (fun e => ocrUsageEntry e.1 0 0), l.length) := by
  intro l
  induction l with
  | nil => intro _; rfl
  | cons e l' ih =>
    intro h
    obtain ⟨ref, b⟩ := e
    have hb := h _ (List.mem_cons_self _ _)
    cases b with
    | success t p it ot => simp [OcrProvFail] at hb
    | raise exc =>
      cases exc with
      | providerError m =>
        simp [ocrTry, ih (fun x hx => h x (List.mem_cons_of_mem _ hx))]
      | notImplementedError m => simp [OcrProvFail] at hb
      | valueError m => simp [OcrProvFail] at hb
      | indexError => simp [OcrProvFail] at hb

theorem ocrTry_success :
    ∀ (pre : List (ModelRef × OcrBehavior)) (ref : ModelRef) (t : Str)
      (p it ot : Nat) (rest2 : List (ModelRef × OcrBehavior)),
      (∀ e ∈ pre, OcrProvFail e.2) →
      ocrTry (pre ++ (ref, .success t p it ot) :: rest2) =
        .ok (some t, pre.map (fun e => ocrUsageEntry e.1 0 0) ++ [ocrUsageEntry ref it ot],
          pre.length) := by
  intro pre
  induction pre with
  | nil => intro ref t p it ot rest2 _; rfl
  | cons e pre' ih =>
    intro ref t p it ot rest2 h
    obtain ⟨refE, bE⟩ := e
    have hb := h _ (List.mem_cons_self _ _)
    cases bE with
    | success tE pE itE otE => simp [OcrProvFail] at hb
    | raise exc =>
      cases exc with
      | providerError m =>
        simp [ocrTry, ih ref t p it ot rest2 (fun x hx => h x (List.mem_cons_of_mem _ hx))]
      | notImplementedError m => simp [OcrProvFail] at hb
      | valueError m => simp [OcrProvFail] at hb
      | indexError => simp [OcrProvFail] at hb

theorem ocrTry_shape :
    ∀ (l : List (ModelRef × OcrBehavior)), (∀ e ∈ l, OcrNoHardRaise e.2) →
      ∃ t u k, ocrTry l = .ok (t, u, k) ∧ ∀ x ∈ u, x.step = "ocr" := by
  intro l
  induction l with
  | nil => intro _; exact ⟨none, [], 0, rfl, by simp⟩
  | cons e l' ih =>
    intro h
    obtain ⟨ref, b⟩ := e
    have hb := h _ (List.mem_cons_self _ _)
    cases b with
    | success t p it ot =>
      exact ⟨some t, [ocrUsageEntry ref it ot], 0, rfl, by simp [ocrUsageEntry]⟩
    | raise exc =>
      cases exc with
      | providerError m =>
        obtain ⟨t, u, k, hTry, hstep⟩ := ih (fun x hx => h x (List.mem_cons_of_mem _ hx))
        refine ⟨t, ocrUsageEntry ref 0 0 :: u, k + 1, by simp [ocrTry, hTry], ?_⟩
        intro x hx
        rcases List.mem_cons.mp hx with hx | hx
        · rw [hx]; rfl
        · exact hstep x hx
      | notImplementedError m => simp [OcrNoHardRaise] at hb
      | valueError m => simp [OcrNoHardRaise] at hb
      | indexError => simp [OcrNoHardRaise] at hb

theorem check_ocr_quality_none (s : PState) (h : s.ocr_text = none) :
    check_ocr_quality_node s = s := by
  unfold check_ocr_quality_node
  conv_lhs => rw [h]

/-- `check_ocr_quality_node` can change only the working text. -/
theorem check_ocr_quality_fields (s : PState) :
    (check_ocr_quality_node s).error = s.error ∧
    (check_ocr_quality_node s).resume_data = s.resume_data ∧
    (check_ocr_quality_node s).current_parse_index = s.current_parse_index ∧
    (check_ocr_quality_node s).usage = s.usage ∧
    (check_ocr_quality_node s).extraction_result = s.extraction_result ∧
    (check_ocr_quality_node s).ocr_text = s.ocr_text ∧
    (check_ocr_quality_node s).ocr_attempted = s.ocr_attempted := by
  unfold check_ocr_quality_node
  cases h : s.ocr_text with
  | none =>
    dsimp only
    exact ⟨rfl, rfl, rfl, rfl, rfl, by first | rfl | exact h, by first | rfl | exact h⟩
  | some t =>
    dsimp only
    by_cases hl : s.text.length < t.length
    · rw [if_pos hl]
      exact ⟨rfl, rfl, rfl, rfl, rfl, by first | rfl | exact h, by first | rfl | exact h⟩
    · rw [if_neg hl]
      exact ⟨rfl, rfl, rfl, rfl, rfl, by first | rfl | exact h, by first | rfl | exact h⟩

theorem extract_node_result (extR : ExtractionResult) (pref : String) :
    extract_node (.result extR) (initial_state pref) = .ok (after_extract extR pref) := rfl

theorem ocr_node_eq (chain : List (ModelRef × OcrBehavior)) (s : PState)
    (t : Option Str) (u : List UsageEntry) (k : Nat)
    (h : ocrTry (chain.drop s.current_ocr_index) = .ok (t, u, k)) :
    ocr_node chain s = .ok (ocrStageState s t u k) := by
  simp [ocr_node, ocrStageState, h]

theorem ocr_node_exhausted (chain : List (ModelRef × OcrBehavior)) (s : PState)
    (hidx : s.current_ocr_index = 0) (h : ∀ e ∈ chain, OcrProvFail e.2) :
    ocr_node chain s =
      .ok (ocrStageState s none (chain.map (fun e => ocrUsageEntry e.1 0 0)) chain.length) := by
  apply ocr_node_eq
  rw [hidx]
  simpa using ocrTry_allFail chain h

theorem ocr_node_success (chain : List (ModelRef × OcrBehavior)) (s : PState)
    (pre : List (ModelRef × OcrBehavior)) (ref : ModelRef) (t : Str) (p it ot : Nat)
    (rest2 : List (ModelRef × OcrBehavior))
    (hidx : s.current_ocr_index = 0)
    (hchain : chain = pre ++ (ref, .success t p it ot) :: rest2)
    (h : ∀ e ∈ pre, OcrProvFail e.2) :
    ocr_node chain s =
      .ok (ocrStageState s (some t)
        (pre.map (fun e => ocrUsageEntry e.1 0 0) ++ [ocrUsageEntry ref it ot]) pre.length) := by
  apply ocr_node_eq
  rw [hidx]
  subst hchain
  simpa using ocrTry_success pre ref t p it ot rest2 h

/-- Every graph path from a successful extraction to the parse stage: the
parse loop starts with no error, no data, cursor 0, an extraction result in
the state and only "ocr"-step ledger entries. -/
theorem pipeline_state_to_parse (extR : ExtractionResult) (pref : String)
    (ocrChain : List (ModelRef × OcrBehavior)) (parseChain : List (ModelRef × ParseBehavior))
    (hocr : ∀ e ∈ ocrChain, OcrNoHardRaise e.2) :
    ∃ s2, pipeline_state (.result extR) pref ocrChain parseChain =
        run_parse_stage parseChain parseChain.length s2 ∧
      s2.error = none ∧ s2.resume_data = none ∧ s2.current_parse_index = 0 ∧
      (∀ u ∈ s2.usage, u.step = "ocr") ∧ s2.extraction_result = some extR := by
  by_cases hroute : route_ocr (ocrChain.map Prod.fst) (after_extract extR pref) = "ocr"
  · obtain ⟨t, u, k, hTry, hstep⟩ := ocrTry_shape ocrChain hocr
    have hz : (after_extract extR pref).current_ocr_index = 0 := by
      simp [after_extract, initial_state]
    have hocrnode : ocr_node ocrChain (after_extract extR pref) =
        .ok (ocrStageState (after_extract extR pref) t u k) := by
      apply ocr_node_eq
      rw [hz]
      simpa using hTry
    obtain ⟨hfe, hfr, hfi, hfu, hfx, _, _⟩ :=
      check_ocr_quality_fields (ocrStageState (after_extract extR pref) t u k)
    refine ⟨check_ocr_quality_node (ocrStageState (after_extract extR pref) t u k),
      ?_, ?_, ?_, ?_, ?_, ?_⟩
    · simp only [pipeline_state]
      rw [extract_node_result]
      dsimp only [check_ocr_node]
      rw [if_pos hroute, hocrnode]
    · rw [hfe]; simp [ocrStageState, after_extract, initial_state]
    · rw [hfr]; simp [ocrStageState, after_extract, initial_state]
    · rw [hfi]; simp [ocrStageState, after_extract, initial_state]
    · intro x hx
      rw [hfu] at hx
      simp [ocrStageState, after_extract, initial_state] at hx
      exact hstep x hx
    · rw [hfx]; simp [ocrStageState, after_extract, initial_state]
  · refine ⟨after_extract extR pref, ?_, ?_, ?_, ?_, ?_, ?_⟩
    · simp only [pipeline_state]
      rw [extract_node_result]
      dsimp only [check_ocr_node]
      rw [if_neg hroute]
    · simp [after_extract, initial_state]
    · simp [after_extract, initial_state]
    · simp [after_extract, initial_state]
    · intro x hx
      simp [after_extract, initial_state] at hx
    · simp [after_extract, initial_state]

/-- C1: run through the orchestrator, a parse chain whose first attempts fail
and whose next attempt succeeds yields exactly one "parse" ledger entry per
attempted chain entry, in chain order, and the successful data; a chain whose
attempts all fail yields one "parse" entry per entry and the chain-exhausted
error. -/
theorem C1_parse_chain_fallback :
    (∀ (extR : ExtractionResult) (pref : String)
       (ocrChain : List (ModelRef × OcrBehavior))
       (pre : List (ModelRef × ParseBehavior)) (ref : ModelRef)
       (rN : LLMExtractionResult) (d : ResumeData),
      (∀ e ∈ ocrChain, OcrNoHardRaise e.2) →
      (∀ e ∈ pre, ParseRecoverableFail e.2) →
      rN.success = true → rN.data = some d →
      ∃ res, run_pipeline (.result extR) pref ocrChain (pre ++ [(ref, ParseBehavior.result rN)]) = .ok res ∧
        res.metadata.usage.filter (fun u => u.step = "parse") =
          (pre ++ [(ref, ParseBehavior.result rN)]).map (fun e => parseUsageEntry e.1 e.2) ∧
        (res.metadata.usage.filter (fun u => u.step = "parse")).length = pre.length + 1 ∧
        res.success = true ∧ res.data = some d ∧ res.error = none) ∧
    (∀ (extR : ExtractionResult) (pref : String)
       (ocrChain : List (ModelRef × OcrBehavior))
       (parseChain : List (ModelRef × ParseBehavior)),
      (∀ e ∈ ocrChain, OcrNoHardRaise e.2) →
      parseChain ≠ [] →
      (∀ e ∈ parseChain, ParseRecoverableFail e.2) →
      ∃ res, run_pipeline (.result extR) pref ocrChain parseChain = .ok res ∧
        res.metadata.usage.filter (fun u => u.step = "parse") =
          parseChain.map (fun e => parseUsageEntry e.1 e.2) ∧
        (res.metadata.usage.filter (fun u => u.step = "parse")).length = parseChain.length ∧
        res.success = false ∧ res.data = none ∧
        res.error = some (exhaustMessage
          (parseResultOf (parseChain.getLastD dummyParseEntry).2).validation_errors)) := by
  constructor
  · intro extR pref ocrChain pre ref rN d hocr hfails hsucc hdata
    obtain ⟨s2, hpipe, he, hr, hi, hu, hx⟩ :=
      pipeline_state_to_parse extR pref ocrChain (pre ++ [(ref, ParseBehavior.result rN)]) hocr
    obtain ⟨s', hrun, husage, hres', herr', _, _, _, _⟩ :=
      run_parse_stage_success (pre ++ [(ref, ParseBehavior.result rN)]) pre
        (pre ++ [(ref, ParseBehavior.result rN)]).length 0 ref rN [] s2
        (by simp) (by simp) hfails hsucc (by simp [hdata]) he hr hi
    have hfilter : s'.usage.filter (fun u => u.step = "parse") =
        (pre ++ [(ref, ParseBehavior.result rN)]).map (fun e => parseUsageEntry e.1 e.2) := by
      rw [husage, List.filter_append]
      have h1 : s2.usage.filter (fun u => u.step = "parse") = [] := by
        rw [List.filter_eq_nil_iff]
        intro a ha
        simp [hu a ha]
      have h2 : (pre.map (fun e => parseUsageEntry e.1 e.2) ++
          [parseUsageEntry ref (ParseBehavior.result rN)]).filter (fun u => u.step = "parse") =
          pre.map (fun e => parseUsageEntry e.1 e.2) ++ [parseUsageEntry ref (ParseBehavior.result rN)] := by
        rw [List.filter_eq_self]
        intro a ha
        rcases List.mem_append.mp ha with ha | ha
        · obtain ⟨e, _, hae⟩ := List.mem_map.mp ha
          simp [← hae, parseUsageEntry_step]
        · simp at ha
          simp [ha, parseUsageEntry_step]
      rw [h1, h2]
      simp
    refine ⟨assemble_result s', ?_, ?_, ?_, ?_, ?_, ?_⟩
    · simp only [run_pipeline]
      rw [hpipe, hrun]
    · simpa [assemble_result] using hfilter
    · simp only [assemble_result]
      rw [hfilter]
      simp
    · simp [assemble_result, hres', hdata]
    · simp [assemble_result, hres', hdata]
    · simp [assemble_result, herr']
  · intro extR pref ocrChain parseChain hocr hne hfails
    obtain ⟨s2, hpipe, he, hr, hi, hu, hx⟩ :=
      pipeline_state_to_parse extR pref ocrChain parseChain hocr
    obtain ⟨s', hrun, husage, hres', herr', _, _, _, _⟩ :=
      run_parse_stage_allFail parseChain parseChain parseChain.length 0 s2
        (by simp) hne (by omega) hfails he hr hi
    have hfilter : s'.usage.filter (fun u => u.step = "parse") =
        parseChain.map (fun e => parseUsageEntry e.1 e.2) := by
      rw [husage, List.filter_append]
      have h1 : s2.usage.filter (fun u => u.step = "parse") = [] := by
        rw [List.filter_eq_nil_iff]
        intro a ha
        simp [hu a ha]
      have h2 : (parseChain.map (fun e => parseUsageEntry e.1 e.2)).filter
          (fun u => u.step = "parse") =
          parseChain.map (fun e => parseUsageEntry e.1 e.2) := by
        rw [List.filter_eq_self]
        intro a ha
        obtain ⟨e, _, hae⟩ := List.mem_map.mp ha
        simp [← hae, parseUsageEntry_step]
      rw [h1, h2]
      simp
    refine ⟨assemble_result s', ?_, ?_, ?_, ?_, ?_, ?_⟩
    · simp only [run_pipeline]
      rw [hpipe, hrun]
    · simpa [assemble_result] using hfilter
    · simp only [assemble_result]
      rw [hfilter]
      simp
    · simp [assemble_result, hres']
    · simp [assemble_result, hres']
    · simp [assemble_result, herr']

/-- C1 witness: a two-entry chain whose first attempt fails on validation and
whose second succeeds, and a one-entry chain whose attempt raises
`ProviderError`. -/
theorem C1_parse_chain_fallback_witness :
    (∃ res, run_pipeline (.result ⟨"John Doe".data, 2, "pdf"⟩) "skip" []
        [(⟨"openrouter", "m1"⟩, .result ⟨false, none, ["invalid json"], "bad", 400, 100⟩),
         (⟨"openrouter", "m2"⟩, .result ⟨true, some ⟨⟨"John"⟩⟩, [], "", 500, 300⟩)] = .ok res ∧
      res.success = true ∧ res.data = some ⟨⟨"John"⟩⟩) ∧
    (∃ res, run_pipeline (.result ⟨"John Doe".data, 2, "pdf"⟩) "skip" []
        [(⟨"openrouter", "m1"⟩, .raise (.providerError "timeout"))] = .ok res ∧
      res.success = false ∧ res.error = some (exhaustMessage ["timeout"])) := by
  constructor
  · obtain ⟨res, h1, _, _, h4, h5, _⟩ :=
      C1_parse_chain_fallback.1 ⟨"John Doe".data, 2, "pdf"⟩ "skip" []
        [(⟨"openrouter", "m1"⟩, .result ⟨false, none, ["invalid json"], "bad", 400, 100⟩)]
        ⟨"openrouter", "m2"⟩ ⟨true, some ⟨⟨"John"⟩⟩, [], "", 500, 300⟩ ⟨⟨"John"⟩⟩
        (by intro e he; simp at he)
        (by intro e he; rw [List.mem_singleton] at he; subst he; exact Or.inl rfl)
        rfl rfl
    exact ⟨res, h1, h4, h5⟩
  · obtain ⟨res, h1, _, _, h4, _, h6⟩ :=
      C1_parse_chain_fallback.2 ⟨"John Doe".data, 2, "pdf"⟩ "skip" []
        [(⟨"openrouter", "m1"⟩, .raise (.providerError "timeout"))]
        (by intro e he; simp at he) (by simp)
        (by intro e he; rw [List.mem_singleton] at he; subst he; trivial)
    exact ⟨res, h1, h4, h6⟩

theorem parse_entry_split (b : ParseBehavior) (hb : ParseNoHardRaise b) :
    ParseRecoverableFail b ∨
    ∃ r, b = ParseBehavior.result r ∧ r.success = true ∧ r.data.isSome = true := by
  rcases b with r | e
  · by_cases hs : r.success = true
    · by_cases hd : r.data.isSome = true
      · exact Or.inr ⟨r, rfl, hs, hd⟩
      · refine Or.inl (Or.inr ?_)
        simpa [Option.not_isSome_iff_eq_none] using hd
    · exact Or.inl (Or.inl (by simpa using hs))
  · cases e with
    | providerError m => exact Or.inl trivial
    | notImplementedError m => simp [ParseNoHardRaise] at hb
    | valueError m => simp [ParseNoHardRaise] at hb
    | indexError => simp [ParseNoHardRaise] at hb

/-- A chain of recoverable attempts either fails throughout or has a first
successful entry. -/
theorem parse_chain_split :
    ∀ (l : List (ModelRef × ParseBehavior)), (∀ e ∈ l, ParseNoHardRaise e.2) →
      (∀ e ∈ l, ParseRecoverableFail e.2) ∨
      ∃ pre ref rN rest2, l = pre ++ (ref, ParseBehavior.result rN) :: rest2 ∧
        (∀ e ∈ pre, ParseRecoverableFail e.2) ∧ rN.success = true ∧ rN.data.isSome = true := by
  intro l
  induction l with
  | nil => intro _; exact Or.inl (by simp)
  | cons e l' ih =>
    intro h
    obtain ⟨ref0, b0⟩ := e
    rcases parse_entry_split b0 (h _ (List.mem_cons_self _ _)) with hb | ⟨r, hbr, hs, hd⟩
    · rcases ih (fun x hx => h x (List.mem_cons_of_mem _ hx)) with
        hall | ⟨pre, ref, rN, rest2, hsplit, hpre, hs, hd⟩
      · refine Or.inl ?_
        intro x hx
        rcases List.mem_cons.mp hx with hx | hx
        · rw [hx]; exact hb
        · exact hall x hx
      · refine Or.inr ⟨(ref0, b0) :: pre, ref, rN, rest2, by rw [hsplit, List.cons_append],
          ?_, hs, hd⟩
        intro x hx
        rcases List.mem_cons.mp hx with hx | hx
        · rw [hx]; exact hb
        · exact hpre x hx
    · exact Or.inr ⟨[], ref0, r, l', by rw [hbr, List.nil_append], by simp, hs, hd⟩

/-- C3: provider failures in the OCR loop each append one zero-usage "ocr"
entry and advance the cursor, until an entry succeeds or the chain is
exhausted; exhaustion is not pipeline-fatal — `ocr_text` stays none,
`ocr_attempted` is true, parse runs on the algorithmic text, and the final
success/data/error are the same as if OCR had been skipped. -/
theorem C3_ocr_degrades_gracefully :
    (∀ (chain : List (ModelRef × OcrBehavior)) (s : PState)
       (pre : List (ModelRef × OcrBehavior)) (ref : ModelRef) (t : Str)
       (p it ot : Nat) (rest2 : List (ModelRef × OcrBehavior)),
      s.current_ocr_index = 0 →
      chain = pre ++ (ref, .success t p it ot) :: rest2 →
      (∀ e ∈ pre, OcrProvFail e.2) →
      ∃ s', ocr_node chain s = .ok s' ∧ s'.ocr_text = some t ∧ s'.ocr_attempted = true ∧
        s'.usage = s.usage ++
          (pre.map (fun e => ocrUsageEntry e.1 0 0) ++ [ocrUsageEntry ref it ot]) ∧
        s'.current_ocr_index = pre.length) ∧
    (∀ (chain : List (ModelRef × OcrBehavior)) (s : PState),
      s.current_ocr_index = 0 →
      (∀ e ∈ chain, OcrProvFail e.2) →
      ∃ s', ocr_node chain s = .ok s' ∧ s'.ocr_text = none ∧ s'.ocr_attempted = true ∧
        s'.usage = s.usage ++ chain.map (fun e => ocrUsageEntry e.1 0 0) ∧
        s'.current_ocr_index = chain.length) ∧
    (∀ (extR : ExtractionResult) (pref : String)
       (ocrChain : List (ModelRef × OcrBehavior))
       (parseChain : List (ModelRef × ParseBehavior)),
      route_ocr (ocrChain.map Prod.fst) (after_extract extR pref) = "ocr" →
      (∀ e ∈ ocrChain, OcrProvFail e.2) →
      (∀ e ∈ parseChain, ParseNoHardRaise e.2) →
      parseChain ≠ [] →
      ∃ resA resB,
        run_pipeline (.result extR) pref ocrChain parseChain = .ok resA ∧
        run_pipeline (.result extR) "skip" [] parseChain = .ok resB ∧
        resA.success = resB.success ∧ resA.data = resB.data ∧ resA.error = resB.error ∧
        resA.metadata.ocr_used = false ∧
        resA.metadata.usage =
          ocrChain.map (fun e => ocrUsageEntry e.1 0 0) ++ resB.metadata.usage ∧
        ∃ s', pipeline_state (.result extR) pref ocrChain parseChain =
            run_parse_stage parseChain parseChain.length s' ∧
          s'.text = extR.text ∧ s'.ocr_text = none ∧ s'.ocr_attempted = true) := by
  refine ⟨?_, ?_, ?_⟩
  · intro chain s pre ref t p it ot rest2 hidx hchain h
    refine ⟨_, ocr_node_success chain s pre ref t p it ot rest2 hidx hchain h,
      rfl, rfl, rfl, ?_⟩
    simp [ocrStageState, hidx]
  · intro chain s hidx h
    refine ⟨_, ocr_node_exhausted chain s hidx h, rfl, rfl, rfl, ?_⟩
    simp [ocrStageState, hidx]
  · intro extR pref ocrChain parseChain hrouteA hfail hparse hne
    have hz : (after_extract extR pref).current_ocr_index = 0 := rfl
    have hexh := ocr_node_exhausted ocrChain (after_extract extR pref) hz hfail
    set sA : PState := ocrStageState (after_extract extR pref) none
      (ocrChain.map (fun e => ocrUsageEntry e.1 0 0)) ocrChain.length with hsA
    have hA : pipeline_state (.result extR) pref ocrChain parseChain =
        run_parse_stage parseChain parseChain.length sA := by
      simp only [pipeline_state]
      rw [extract_node_result]
      dsimp only [check_ocr_node]
      rw [if_pos hrouteA, hexh]
      dsimp only
      rw [check_ocr_quality_none sA rfl]
    have hrB : route_ocr (([] : List (ModelRef × OcrBehavior)).map Prod.fst)
        (after_extract extR "skip") ≠ "ocr" := by
      simp [route_ocr, after_extract, initial_state, errTruthy]
    have hB : pipeline_state (.result extR) "skip" [] parseChain =
        run_parse_stage parseChain parseChain.length (after_extract extR "skip") := by
      simp only [pipeline_state]
      rw [extract_node_result]
      dsimp only [check_ocr_node]
      rw [if_neg hrB]
    have hsAerr : sA.error = none := rfl
    have hsAres : sA.resume_data = none := rfl
    have hsAidx : sA.current_parse_index = 0 := rfl
    have hsAusage : sA.usage = ocrChain.map (fun e => ocrUsageEntry e.1 0 0) := rfl
    have hsBerr : (after_extract extR "skip").error = none := rfl
    have hsBres : (after_extract extR "skip").resume_data = none := rfl
    have hsBidx : (after_extract extR "skip").current_parse_index = 0 := rfl
    rcases parse_chain_split parseChain hparse with
      hall | ⟨pre, ref, rN, rest2, hsplit, hpre, hs, hd⟩
    · obtain ⟨sA', hArun, hAu, hAr, hAe, hAt, hAo, hAa, _⟩ :=
        run_parse_stage_allFail parseChain parseChain parseChain.length 0 sA
          (by simp) hne (by omega) hall hsAerr hsAres hsAidx
      obtain ⟨sB', hBrun, hBu, hBr, hBe, _, _, _, _⟩ :=
        run_parse_stage_allFail parseChain parseChain parseChain.length 0
          (after_extract extR "skip") (by simp) hne (by omega) hall hsBerr hsBres hsBidx
      refine ⟨assemble_result sA', assemble_result sB', ?_, ?_, ?_, ?_, ?_, ?_, ?_, ?_⟩
      · simp only [run_pipeline]
        rw [hA, hArun]
      · simp only [run_pipeline]
        rw [hB, hBrun]
      · simp [assemble_result, hAr, hBr]
      · simp [assemble_result, hAr, hBr]
      · simp [assemble_result, hAe, hBe]
      · simp only [assemble_result]
        rw [show sA'.ocr_text = sA.ocr_text from hAo]
        simp [hsA, ocrStageState]
      · simp only [assemble_result]
        rw [hAu, hBu, hsAusage]
        simp [after_extract, initial_state]
      · exact ⟨sA, hA, rfl, rfl, rfl⟩
    · have hlenpre : pre.length ≤ parseChain.length := by
        rw [hsplit]
        simp only [List.length_append, List.length_cons]
        omega
      obtain ⟨sA', hArun, hAu, hAr, hAe, hAt, hAo, hAa, _⟩ :=
        run_parse_stage_success parseChain pre parseChain.length 0 ref rN rest2 sA
          (by rw [hsplit]; simp) hlenpre hpre hs hd hsAerr hsAres hsAidx
      obtain ⟨sB', hBrun, hBu, hBr, hBe, _, _, _, _⟩ :=
        run_parse_stage_success parseChain pre parseChain.length 0 ref rN rest2
          (after_extract extR "skip") (by rw [hsplit]; simp) hlenpre hpre hs hd
          hsBerr hsBres hsBidx
      refine ⟨assemble_result sA', assemble_result sB', ?_, ?_, ?_, ?_, ?_, ?_, ?_, ?_⟩
      · simp only [run_pipeline]
        rw [hA, hArun]
      · simp only [run_pipeline]
        rw [hB, hBrun]
      · simp [assemble_result, hAr, hBr]
      · simp [assemble_result, hAr, hBr]
      · simp [assemble_result, hAe, hBe]
      · simp only [assemble_result]
        rw [show sA'.ocr_text = sA.ocr_text from hAo]
        simp [hsA, ocrStageState]
      · simp only [assemble_result]
        rw [hAu, hBu, hsAusage]
        simp [after_extract, initial_state]
      · exact ⟨sA, hA, rfl, rfl, rfl⟩

/-- C3 witness: a one-entry OCR chain raising `ProviderError`, compared with
the same pipeline run with OCR skipped. -/
theorem C3_ocr_degrades_gracefully_witness :
    ∃ resA resB,
      run_pipeline (.result ⟨"algorithmic text".data, 1, "pdf"⟩) "force"
          [(⟨"openrouter", "vis"⟩, .raise (.providerError "boom"))]
          [(⟨"openrouter", "m"⟩, .result ⟨true, some ⟨⟨"Jane"⟩⟩, [], "", 10, 5⟩)] = .ok resA ∧
      run_pipeline (.result ⟨"algorithmic text".data, 1, "pdf"⟩) "skip" []
          [(⟨"openrouter", "m"⟩, .result ⟨true, some ⟨⟨"Jane"⟩⟩, [], "", 10, 5⟩)] = .ok resB ∧
      resA.success = resB.success ∧ resA.data = resB.data ∧ resA.error = resB.error ∧
      resA.metadata.ocr_used = false ∧
      resA.metadata.usage = ocrUsageEntry ⟨"openrouter", "vis"⟩ 0 0 :: resB.metadata.usage := by
  obtain ⟨resA, resB, h1, h2, h3, h4, h5, h6, h7, _⟩ :=
    C3_ocr_degrades_gracefully.2.2 ⟨"algorithmic text".data, 1, "pdf"⟩ "force"
      [(⟨"openrouter", "vis"⟩, .raise (.providerError "boom"))]
      [(⟨"openrouter", "m"⟩, .result ⟨true, some ⟨⟨"Jane"⟩⟩, [], "", 10, 5⟩)]
      (by decide)
      (fun e he => by rw [List.mem_singleton] at he; subst he; trivial)
      (fun e he => by rw [List.mem_singleton] at he; subst he; trivial)
      (by simp)
  exact ⟨resA, resB, h1, h2, h3, h4, h5, h6, by simpa using h7⟩

/-- C4 counterexample: with OCR producing text identical to the algorithmic
text, `check_ocr_quality_node` does not replace the working text (it is not
strictly longer), yet the final metadata reports `ocr_used = true` and
`extraction_method = "ocr"` — so the flag is not "true exactly when OCR text
was selected over the algorithmic text". -/
theorem C4_counterexample_equal_text :
    run_pipeline (.result ⟨"abcde".data, 2, "pdf"⟩) "force"
        [(⟨"openrouter", "vis"⟩, .success "abcde".data 1 10 5)]
        [(⟨"openrouter", "m"⟩, .result ⟨true, some ⟨⟨"John"⟩⟩, [], "", 5, 5⟩)] =
      .ok ⟨true, some ⟨⟨"John"⟩⟩,
        ⟨"ocr", true, 2, 0, [⟨"ocr", "vis", 10, 5⟩, ⟨"parse", "m", 5, 5⟩]⟩, none⟩ ∧
    ¬ ("abcde".data.length < "abcde".data.length) ∧
    check_ocr_quality_node { text := "abcde".data, ocr_text := some ("abcde".data) } =
      { text := "abcde".data, ocr_text := some ("abcde".data) } := by
  exact ⟨by decide, by decide, by decide⟩

/-- C4 (amended): the OCR text replaces the working text iff it is strictly
longer; and the final `ocr_used` flag is true exactly when OCR was attempted,
produced non-empty text, and the final working text equals the OCR text
(which, whenever the OCR text differs from the algorithmic text, coincides
with the strictly-longer selection). -/
theorem C4_ocr_selection_amended :
    (∀ (s : PState) (t : Str), s.ocr_text = some t →
      (check_ocr_quality_node s).text = (if s.text.length < t.length then t else s.text)) ∧
    (∀ s : PState, s.ocr_text = none → (check_ocr_quality_node s).text = s.text) ∧
    (∀ (extB : ExtractBehavior) (pref : String)
       (oc : List (ModelRef × OcrBehavior)) (pc : List (ModelRef × ParseBehavior)) (s' : PState),
      pipeline_state extB pref oc pc = .ok s' →
      run_pipeline extB pref oc pc = .ok (assemble_result s') ∧
      ((assemble_result s').metadata.ocr_used = true ↔
        s'.ocr_attempted = true ∧ ∃ t, s'.ocr_text = some t ∧ t ≠ [] ∧ s'.text = t)) := by
  refine ⟨?_, ?_, ?_⟩
  · intro s t h
    unfold check_ocr_quality_node
    conv_lhs => rw [h]
    dsimp only
    by_cases hl : s.text.length < t.length
    · rw [if_pos hl, if_pos hl]
    · rw [if_neg hl, if_neg hl]
  · intro s h
    rw [check_ocr_quality_none s h]
  · intro extB pref oc pc s' h
    constructor
    · simp only [run_pipeline]
      rw [h]
    · simp only [assemble_result]
      rw [Bool.and_eq_true]
      constructor
      · rintro ⟨ha, hm⟩
        refine ⟨ha, ?_⟩
        cases ho : s'.ocr_text with
        | none => rw [ho] at hm; simp at hm
        | some t =>
          rw [ho] at hm
          rw [Bool.and_eq_true] at hm
          refine ⟨t, rfl, ?_, ?_⟩
          · simpa [List.isEmpty_iff] using hm.1
          · simpa using hm.2
      · rintro ⟨ha, t, ho, hne, htx⟩
        refine ⟨ha, ?_⟩
        rw [ho]
        simp [List.isEmpty_iff, hne, htx]

/-- C4 amended witness: strictly-longer replacement, none-case identity, and
the flag formula on a concrete run. -/
theorem C4_ocr_selection_amended_witness :
    (check_ocr_quality_node { text := "ab".data, ocr_text := some "abcd".data }).text =
      "abcd".data ∧
    (check_ocr_quality_node { text := "ab".data, ocr_text := none }).text = "ab".data ∧
    run_pipeline (.extractionErr "bad") "auto" [] [] =
      .ok (assemble_result { ocr_preference := some "auto", error := some "bad", text := [] }) := by
  refine ⟨?_, ?_, ?_⟩
  · have h := C4_ocr_selection_amended.1 { text := "ab".data, ocr_text := some "abcd".data }
      "abcd".data rfl
    have h2 : ("ab".data.length < "abcd".data.length) := by decide
    rw [if_pos h2] at h
    exact h
  · exact C4_ocr_selection_amended.2.1 { text := "ab".data, ocr_text := none } rfl
  · exact (C4_ocr_selection_amended.2.2 (.extractionErr "bad") "auto" [] []
      { ocr_preference := some "auto", error := some "bad", text := [] } (by decide)).1

/-- C6: for every text, the Quality Scorer's sufficiency verdict is true iff
the character count, word count and alpha ratio each meet their threshold
(logical AND of the three criteria); in particular the empty string yields
`alpha_ratio = 0` (no division) and sufficiency false. -/
theorem C6_quality_sufficiency :
    (∀ t : Str,
      (score_quality t).sufficient = true ↔
        MIN_CHARS ≤ (score_quality t).char_count ∧
        MIN_WORDS ≤ (score_quality t).word_count ∧
        MIN_ALPHA_RATIO_Q ≤ (score_quality t).alpha_ratio) ∧
    (score_quality []).alpha_ratio = 0 ∧ (score_quality []).sufficient = false := by
  refine ⟨fun t => ?_, by decide, by decide⟩
  simp [score_quality, Bool.and_eq_true, decide_eq_true_eq, and_assoc]

/-- C7 counterexample: `parse_chain "a/m,"` raises the unknown-provider error
for its first entry (entries are validated left to right), not the empty-entry
error the claim asserts; the two errors are distinct. -/
theorem C7_counterexample_unknown_provider_first :
    parse_chain "a/m," "F" = .error (.unknownProvider "F" "a" "a/m") ∧
    ChainError.unknownProvider "F" "a" "a/m" ≠ ChainError.emptyEntry "F" := by
  decide

/-- C7 (amended): chain parsing splits on commas, trims entries, validates per
entry with first failure winning: registered two-entry chains parse in input
order (with whitespace trimmed), empty entries (trailing, leading or doubled
commas) raise the empty-entry error, a missing "/" raises the
missing-provider-prefix error, an unregistered provider raises the
unknown-provider error — so "a/m," fails on its first entry's unknown
provider "a", while "openrouter/m," reaches the trailing empty entry. -/
theorem C7_chain_validation :
    parse_chain "openrouter/m1,anthropic/m2" "F" =
      .ok [⟨"openrouter", "m1"⟩, ⟨"anthropic", "m2"⟩] ∧
    parse_chain " openrouter/m1 , anthropic/m2 " "F" =
      .ok [⟨"openrouter", "m1"⟩, ⟨"anthropic", "m2"⟩] ∧
    parse_chain "openrouter/m," "F" = .error (.emptyEntry "F") ∧
    parse_chain ",openrouter/m" "F" = .error (.emptyEntry "F") ∧
    parse_chain "openrouter/m,,anthropic/m2" "F" = .error (.emptyEntry "F") ∧
    parse_chain "just-a-model-name" "F" = .error (.missingSlash "F" "just-a-model-name") ∧
    parse_chain "fakeprov/m" "F" = .error (.unknownProvider "F" "fakeprov" "fakeprov/m") ∧
    parse_chain "a/m," "F" = .error (.unknownProvider "F" "a" "a/m") := by
  decide

/-- C8: the empty-string/"none" sentinel (case-insensitive, whitespace
trimmed) yields an empty OCR chain without error, while the same sentinel for
the mandatory parse chain is a configuration error. -/
theorem C8_ocr_sentinel :
    (∀ s : String,
      pyStrip s.data = [] ∨ pyLower (pyStrip s.data) = "none".data →
      ocr_model_chain s = .ok []) ∧
    (∀ p o : String,
      pyStrip p.data = [] ∨ pyLower (pyStrip p.data) = "none".data →
      validate_model_chains p o = .error .parseModelsRequired) := by
  constructor
  · intro s h
    rcases h with h | h <;> simp [ocr_model_chain, h]
  · intro p o h
    rcases h with h | h <;> simp [validate_model_chains, h]

/-- C8 witness: the sentinel at concrete inputs, in several spellings. -/
theorem C8_ocr_sentinel_witness :
    ocr_model_chain "" = .ok [] ∧
    ocr_model_chain "none" = .ok [] ∧
    ocr_model_chain " NoNe " = .ok [] ∧
    validate_model_chains "NONE" "openrouter/m" = .error .parseModelsRequired ∧
    validate_model_chains "" "openrouter/m" = .error .parseModelsRequired :=
  ⟨C8_ocr_sentinel.1 "" (Or.inl (by decide)),
   C8_ocr_sentinel.1 "none" (Or.inr (by decide)),
   C8_ocr_sentinel.1 " NoNe " (Or.inr (by decide)),
   C8_ocr_sentinel.2 "NONE" "openrouter/m" (Or.inr (by decide)),
   C8_ocr_sentinel.2 "" "openrouter/m" (Or.inl (by decide))⟩

/-- C5: on bytes whose content type and extension match no recognized kind the
dispatcher `extract_text` raises `ValueError` instead of returning the
explicit "no extraction possible" result (empty text, zero pages) that the
spec and the repository's own test
`test_unknown_type_returns_method_none` expect. -/
theorem C5_unrecognized_type_raises :
    extract_text "application/octet-stream" "file.xyz" =
      .error (.valueError
        "Unsupported file type: content_type='application/octet-stream', filename='file.xyz'") ∧
    ∃ e, extract_text "application/octet-stream" "file.xyz" = .error e := by
  have h : extract_text "application/octet-stream" "file.xyz" =
      .error (.valueError
        "Unsupported file type: content_type='application/octet-stream', filename='file.xyz'") := by
    decide
  exact ⟨h, ⟨_, h⟩⟩

/-- C2: `route_ocr` evaluates its conditions in precedence order: a recorded
error routes to parse; else preference "skip" routes to parse; else an empty
OCR chain routes to parse; else preference "force" routes to OCR regardless
of text quality; else, under "auto", it routes to parse exactly when the
quality verdict is sufficient (a missing verdict counts as not sufficient). -/
theorem C2_route_ocr_precedence :
    ∀ (ocr_chain : List ModelRef) (s : PState),
      (errTruthy s.error = true → route_ocr ocr_chain s = "parse") ∧
      (errTruthy s.error = false → s.ocr_preference.getD "auto" = "skip" →
        route_ocr ocr_chain s = "parse") ∧
      (errTruthy s.error = false → s.ocr_preference.getD "auto" ≠ "skip" →
        ocr_chain = [] → route_ocr ocr_chain s = "parse") ∧
      (errTruthy s.error = false → s.ocr_preference.getD "auto" = "force" →
        ocr_chain ≠ [] → route_ocr ocr_chain s = "ocr") ∧
      (errTruthy s.error = false → s.ocr_preference.getD "auto" = "auto" →
        ocr_chain ≠ [] →
        route_ocr ocr_chain s =
          (match s.text_quality with
           | some q => if q.sufficient then "parse" else "ocr"
           | none => "ocr")) := by
  intro ocr_chain s
  refine ⟨fun h1 => ?_, fun h1 h2 => ?_, fun h1 h2 h3 => ?_,
          fun h1 h2 h3 => ?_, fun h1 h2 h3 => ?_⟩ <;>
    simp_all [route_ocr]

/-- C2 witness: each routing branch at a concrete state. -/
theorem C2_route_ocr_precedence_witness :
    route_ocr [⟨"openrouter", "m"⟩] { error := some "boom" } = "parse" ∧
    route_ocr [⟨"openrouter", "m"⟩] { ocr_preference := some "skip" } = "parse" ∧
    route_ocr [] { ocr_preference := some "auto" } = "parse" ∧
    route_ocr [⟨"openrouter", "m"⟩]
      { ocr_preference := some "force",
        text_quality := some ⟨1, 500, 100, 0, true⟩ } = "ocr" ∧
    route_ocr [⟨"openrouter", "m"⟩]
      { ocr_preference := some "auto",
        text_quality := some ⟨1, 500, 100, 0, true⟩ } = "parse" :=
  ⟨(C2_route_ocr_precedence _ _).1 (by decide),
   (C2_route_ocr_precedence _ _).2.1 (by decide) rfl,
   (C2_route_ocr_precedence _ _).2.2.1 (by decide) (by decide) rfl,
   (C2_route_ocr_precedence _ _).2.2.2.1 (by decide) rfl (by decide),
   (C2_route_ocr_precedence _ _).2.2.2.2 (by decide) rfl (by decide)⟩

-- Helper lemmas for the fence-stripping round trip (C9).

theorem dropWhile_append_of_all {p : Char → Bool} :
    ∀ (w x : Str), (∀ c ∈ w, p c = true) → (w ++ x).dropWhile p = x.dropWhile p := by
  intro w
  induction w with
  | nil => intro x _; rfl
  | cons c w' ih =>
    intro x h
    have hc : p c = true := h c (List.mem_cons_self _ _)
    simp only [List.cons_append, List.dropWhile_cons, hc, if_true]
    exact ih x (fun a ha => h a (List.mem_cons_of_mem _ ha))

theorem dropWhile_cons_neg {p : Char → Bool} (c : Char) (l : Str) (h : p c = false) :
    (c :: l).dropWhile p = c :: l := by
  simp [List.dropWhile_cons, h]

theorem dropWhile_idem {p : Char → Bool} :
    ∀ l : Str, (l.dropWhile p).dropWhile p = l.dropWhile p := by
  intro l
  induction l with
  | nil => rfl
  | cons c l' ih =>
    by_cases h : p c = true
    · simp [List.dropWhile_cons, h, ih]
    · simp only [Bool.not_eq_true] at h
      simp [List.dropWhile_cons, h]

theorem pyLStrip_noop (c : Char) (l : Str) (h : isPyWs c = false) :
    pyLStrip (c :: l) = c :: l := dropWhile_cons_neg c l h

theorem pyRStrip_noop (pre : Str) (c : Char) (h : isPyWs c = false) :
    pyRStrip (pre ++ [c]) = pre ++ [c] := by
  unfold pyRStrip
  rw [List.reverse_append]
  simp only [List.reverse_cons, List.reverse_nil, List.nil_append, List.singleton_append]
  rw [dropWhile_cons_neg c _ h]
  simp

theorem pyRStrip_append_ws : ∀ (x w : Str), (∀ c ∈ w, isPyWs c = true) →
    pyRStrip (x ++ w) = pyRStrip x := by
  intro x w h
  unfold pyRStrip
  rw [List.reverse_append, dropWhile_append_of_all w.reverse x.reverse
    (fun c hc => h c (List.mem_reverse.mp hc))]

theorem pyLStrip_append_ws : ∀ (w x : Str), (∀ c ∈ w, isPyWs c = true) →
    pyLStrip (w ++ x) = pyLStrip x := fun w x h => dropWhile_append_of_all w x h

theorem pyRStrip_idem (s : Str) : pyRStrip (pyRStrip s) = pyRStrip s := by
  unfold pyRStrip
  rw [List.reverse_reverse, dropWhile_idem]

theorem pyStrip_rstrip (s : Str) : pyStrip (pyRStrip s) = pyStrip s := by
  unfold pyStrip
  rw [pyRStrip_idem]

/-- A text sandwiched between whitespace, with non-whitespace first and last
characters, is what `str.strip()` returns. -/
theorem pyStrip_decomp (w1 core w2 : Str)
    (hw1 : ∀ c ∈ w1, isPyWs c = true) (hw2 : ∀ c ∈ w2, isPyWs c = true)
    (h0 : Char) (tl : Str) (hhead : core = h0 :: tl) (hh0 : isPyWs h0 = false)
    (ce : Char) (pre : Str) (hlast : core = pre ++ [ce]) (hce : isPyWs ce = false) :
    pyStrip (w1 ++ core ++ w2) = core := by
  unfold pyStrip
  rw [show w1 ++ core ++ w2 = (w1 ++ core) ++ w2 from by simp,
    pyRStrip_append_ws (w1 ++ core) w2 hw2]
  have h1 : pyRStrip (w1 ++ core) = w1 ++ core := by
    rw [hlast, ← List.append_assoc]
    exact pyRStrip_noop (w1 ++ pre) ce hce
  rw [h1, pyLStrip_append_ws w1 core hw1, hhead, pyLStrip_noop h0 tl hh0]

theorem pyStrip_noop (core : Str)
    (h0 : Char) (tl : Str) (hhead : core = h0 :: tl) (hh0 : isPyWs h0 = false)
    (ce : Char) (pre : Str) (hlast : core = pre ++ [ce]) (hce : isPyWs ce = false) :
    pyStrip core = core := by
  have h := pyStrip_decomp [] core [] (by simp) (by simp) h0 tl hhead hh0 ce pre hlast hce
  simpa using h

theorem splitOnChar_ne_nil (sep : Char) : ∀ s : Str, splitOnChar sep s ≠ [] := by
  intro s
  cases s with
  | nil => simp [splitOnChar]
  | cons c rest =>
    by_cases h : c = sep
    · simp [splitOnChar, h]
    · simp only [splitOnChar, if_neg h]
      cases splitOnChar sep rest <;> simp

theorem joinWith_splitOnChar (sep : Char) : ∀ s : Str, joinWith sep (splitOnChar sep s) = s := by
  intro s
  induction s with
  | nil => rfl
  | cons c rest ih =>
    by_cases h : c = sep
    · subst h
      simp only [splitOnChar, if_pos rfl]
      cases hs : splitOnChar c rest with
      | nil => exact absurd hs (splitOnChar_ne_nil c rest)
      | cons g gs =>
        rw [hs] at ih
        simp [joinWith, ih]
    · simp only [splitOnChar, if_neg h]
      cases hs : splitOnChar sep rest with
      | nil => exact absurd hs (splitOnChar_ne_nil sep rest)
      | cons g gs =>
        rw [hs] at ih
        cases gs with
        | nil => simpa [joinWith] using ih
        | cons g2 gs2 =>
          simp only [joinWith] at ih ⊢
          rw [← ih]
          simp

theorem splitOnChar_append (sep : Char) :
    ∀ (a b : Str), (∀ c ∈ a, c ≠ sep) →
      splitOnChar sep (a ++ sep :: b) = a :: splitOnChar sep b := by
  intro a
  induction a with
  | nil =>
    intro b _
    simp [splitOnChar]
  | cons c a' ih =>
    intro b h
    have hc : c ≠ sep := h c (List.mem_cons_self _ _)
    simp only [List.cons_append, splitOnChar, if_neg hc, List.append_eq]
    rw [ih b (fun x hx => h x (List.mem_cons_of_mem _ hx))]

theorem splitOnChar_headD (sep : Char) :
    ∀ s : Str, (splitOnChar sep s).headD [] = s.takeWhile (fun c => !(c = sep : Bool)) := by
  intro s
  induction s with
  | nil => rfl
  | cons c rest ih =>
    by_cases h : c = sep
    · simp [splitOnChar, h, List.takeWhile_cons]
    · simp only [splitOnChar, if_neg h]
      cases hs : splitOnChar sep rest with
      | nil => exact absurd hs (splitOnChar_ne_nil sep rest)
      | cons g gs =>
        rw [hs] at ih
        simp only [List.headD] at ih
        simp [List.takeWhile_cons, h, ← ih]

theorem pStringBody_suffix_len :
    ∀ (n : Nat) (s : Str), s.length ≤ n → ∀ cs r, pStringBody s = some (cs, r) →
      ∃ pre, s = pre ++ '"' :: r := by
  intro n
  induction n with
  | zero =>
    intro s hle cs r h
    have hs : s = [] := List.eq_nil_of_length_eq_zero (Nat.le_zero.mp hle)
    subst hs
    simp only [pStringBody.eq_1] at h
    exact absurd h (by simp)
  | succ n ih =>
    intro s hle cs r h
    rcases s with _ | ⟨c, rest⟩
    · simp only [pStringBody.eq_1] at h
      exact absurd h (by simp)
    rcases rest with _ | ⟨e, rest1⟩
    · simp only [pStringBody.eq_2] at h
      split at h
      · rename_i hq
        injection h with h'
        injection h' with ha hb
        subst hb hq
        exact ⟨[], by simp⟩
      · split at h
        · exact absurd h (by simp)
        · split at h
          · exact absurd h (by simp)
          · simp only [pStringBody.eq_1] at h
            exact absurd h (by simp)
    by_cases hsh : ∃ h1 h2 h3 h4 rest2, rest1 = h1 :: h2 :: h3 :: h4 :: rest2
    · obtain ⟨a1, a2, a3, a4, rest2, hr⟩ := hsh
      subst hr
      simp only [pStringBody.eq_3] at h
      split at h
      · rename_i hq
        injection h with h'
        injection h' with ha hb
        subst hb hq
        exact ⟨[], by simp⟩
      · split at h
        · rename_i hq hbs
          split at h
          · split at h
            · rename_i cs' r' heq
              injection h with h'
              injection h' with ha hb
              subst hb hbs
              have hlen : (a1 :: a2 :: a3 :: a4 :: rest2).length ≤ n := by
                simp only [List.length_cons] at hle ⊢; omega
              obtain ⟨pre, hpre⟩ := ih _ hlen _ _ heq
              exact ⟨'\\' :: e :: pre, by simp [hpre]⟩
            · exact absurd h (by simp)
          · split at h
            · split at h
              · split at h
                · rename_i cs' r' heq
                  injection h with h'
                  injection h' with ha hb
                  subst hb hbs
                  have hlen : rest2.length ≤ n := by
                    simp only [List.length_cons] at hle; omega
                  obtain ⟨pre, hpre⟩ := ih _ hlen _ _ heq
                  exact ⟨'\\' :: e :: a1 :: a2 :: a3 :: a4 :: pre, by simp [hpre]⟩
                · exact absurd h (by simp)
              · exact absurd h (by simp)
            · exact absurd h (by simp)
        · split at h
          · exact absurd h (by simp)
          · split at h
            · rename_i cs' r' heq
              injection h with h'
              injection h' with ha hb
              subst hb
              have hlen : (e :: a1 :: a2 :: a3 :: a4 :: rest2).length ≤ n := by
                simp only [List.length_cons] at hle ⊢; omega
              obtain ⟨pre, hpre⟩ := ih _ hlen _ _ heq
              exact ⟨c :: pre, by simp [hpre]⟩
            · exact absurd h (by simp)
    · simp only [pStringBody.eq_4 c e rest1 (fun a b cc d ee hh => hsh ⟨a, b, cc, d, ee, hh⟩)] at h
      split at h
      · rename_i hq
        injection h with h'
        injection h' with ha hb
        subst hb hq
        exact ⟨[], by simp⟩
      · split at h
        · rename_i hq hbs
          split at h
          · split at h
            · rename_i cs' r' heq
              injection h with h'
              injection h' with ha hb
              subst hb hbs
              have hlen : rest1.length ≤ n := by
                simp only [List.length_cons] at hle; omega
              obtain ⟨pre, hpre⟩ := ih _ hlen _ _ heq
              exact ⟨'\\' :: e :: pre, by simp [hpre]⟩
            · exact absurd h (by simp)
          · split at h <;> exact absurd h (by simp)
        · split at h
          · exact absurd h (by simp)
          · split at h
            · rename_i cs' r' heq
              injection h with h'
              injection h' with ha hb
              subst hb
              have hlen : (e :: rest1).length ≤ n := by
                simp only [List.length_cons] at hle ⊢; omega
              obtain ⟨pre, hpre⟩ := ih _ hlen _ _ heq
              exact ⟨c :: pre, by simp [hpre]⟩
            · exact absurd h (by simp)

theorem digits1_suffix (s d rr : Str) (h : digits1 s = some (d, rr)) :
    ∃ pre c, s = pre ++ c :: rr ∧ c.isDigit = true := by
  simp only [digits1] at h
  split at h
  · exact absurd h (by simp)
  · rename_i hne
    injection h with h'
    injection h' with ha hb
    subst hb
    have hsplit := (List.takeWhile_append_dropWhile (p := Char.isDigit) (l := s)).symm
    rcases List.eq_nil_or_concat (s.takeWhile Char.isDigit) with hnil | ⟨pre', c, hc⟩
    · rw [hnil] at hne; simp at hne
    · refine ⟨pre', c, ?_, ?_⟩
      · conv_lhs => rw [hsplit, hc]
        simp [List.concat_eq_append]
      · have hmem : c ∈ s.takeWhile Char.isDigit := by rw [hc]; simp
        exact List.mem_takeWhile_imp hmem


theorem dropSign_decomp (s : Str) : ∃ w, s = w ++ dropSign s := by
  unfold dropSign
  split
  · rename_i r; exact ⟨['-'], rfl⟩
  · exact ⟨[], rfl⟩

theorem dropExpSign_decomp (r : Str) : ∃ w, r = w ++ dropExpSign r := by
  unfold dropExpSign
  split
  · rename_i c2 r'
    split
    · exact ⟨[c2], rfl⟩
    · exact ⟨[], rfl⟩
  · exact ⟨[], rfl⟩

theorem pInt_suffix (s1 intEnd : Str) (h : pInt s1 = some intEnd) :
    ∃ pre c, s1 = pre ++ c :: intEnd ∧ c.isDigit = true := by
  unfold pInt at h
  split at h
  · rename_i r
    injection h with h'
    subst h'
    exact ⟨[], '0', by simp, by decide⟩
  · rename_i c t hne
    split at h
    · rename_i hd
      injection h with h'
      have hsplit := (List.takeWhile_append_dropWhile (p := Char.isDigit) (l := c :: t)).symm
      have htw : (c :: t).takeWhile Char.isDigit = c :: t.takeWhile Char.isDigit := by
        simp [List.takeWhile_cons, hd]
      rcases List.eq_nil_or_concat ((c :: t).takeWhile Char.isDigit) with hnil | ⟨pre', c', hc⟩
      · rw [htw] at hnil; simp at hnil
      · refine ⟨pre', c', ?_, ?_⟩
        · conv_lhs => rw [hsplit, hc]
          rw [← h']
          simp [List.concat_eq_append]
        · exact List.mem_takeWhile_imp (l := c :: t) (by rw [hc]; simp [List.concat_eq_append])
    · exact absurd h (by simp)
  · exact absurd h (by simp)

theorem pFrac_suffix (intEnd fracEnd : Str) (h : pFrac intEnd = some fracEnd) :
    (∃ pre c, intEnd = pre ++ c :: fracEnd ∧ c.isDigit = true) ∨ intEnd = fracEnd := by
  unfold pFrac at h
  split at h
  · rename_i r
    left
    rcases hd : digits1 r with _ | ⟨d, rr⟩ <;> rw [hd] at h
    · simp at h
    · simp only [Option.map_some'] at h
      injection h with h'
      obtain ⟨pre, c, hr, hdig⟩ := digits1_suffix r d rr hd
      exact ⟨'.' :: pre, c, by rw [hr, h']; simp, hdig⟩
  · right
    injection h

theorem pExpPart_suffix (fracEnd rr : Str) (h : pExpPart fracEnd = some rr) :
    (∃ pre c, fracEnd = pre ++ c :: rr ∧ c.isDigit = true) ∨ fracEnd = rr := by
  unfold pExpPart at h
  split at h
  · rename_i c r
    split at h
    · left
      rcases hd : digits1 (dropExpSign r) with _ | ⟨d, rr'⟩ <;> rw [hd] at h
      · simp at h
      · simp only [Option.map_some'] at h
        injection h with h'
        obtain ⟨pre, cd, hr, hdig⟩ := digits1_suffix _ d rr' hd
        obtain ⟨w, hw⟩ := dropExpSign_decomp r
        refine ⟨c :: w ++ pre, cd, ?_, hdig⟩
        rw [← h']
        conv_lhs => rw [hw, hr]
        simp
    · right
      injection h
  · right
    injection h

theorem pNumber_suffix (s rr : Str) (h : pNumber s = some rr) :
    ∃ pre c, s = pre ++ c :: rr ∧ c.isDigit = true := by
  unfold pNumber at h
  split at h
  · exact absurd h (by simp)
  · rename_i intEnd heqInt
    split at h
    · exact absurd h (by simp)
    · rename_i fracEnd heqFrac
      obtain ⟨p1, c1, hp1, hd1⟩ := pInt_suffix _ _ heqInt
      have hglue2 : ∃ pre c, dropSign s = pre ++ c :: fracEnd ∧ c.isDigit = true := by
        rcases pFrac_suffix _ _ heqFrac with ⟨p2, c2, hp2, hd2⟩ | heq
        · exact ⟨p1 ++ c1 :: p2, c2, by rw [hp1, hp2]; simp, hd2⟩
        · exact ⟨p1, c1, by rw [hp1, heq], hd1⟩
      obtain ⟨p3, c3, hp3, hd3⟩ := hglue2
      have hglue3 : ∃ pre c, dropSign s = pre ++ c :: rr ∧ c.isDigit = true := by
        rcases pExpPart_suffix _ _ h with ⟨p4, c4, hp4, hd4⟩ | heq
        · exact ⟨p3 ++ c3 :: p4, c4, by rw [hp3, hp4]; simp, hd4⟩
        · exact ⟨p3, c3, by rw [hp3, heq], hd3⟩
      obtain ⟨p5, c5, hp5, hd5⟩ := hglue3
      obtain ⟨w, hw⟩ := dropSign_decomp s
      exact ⟨w ++ p5, c5, by rw [hw, hp5]; simp, hd5⟩

theorem pStringBody_suffix (s cs r : Str) (h : pStringBody s = some (cs, r)) :
    ∃ pre, s = pre ++ '"' :: r :=
  pStringBody_suffix_len s.length s (Nat.le_refl _) cs r h

theorem stripLit_decomp : ∀ (lit s r : Str), stripLit lit s = some r → s = lit ++ r := by
  intro lit
  induction lit with
  | nil =>
    intro s r h
    simp only [stripLit, Option.some.injEq] at h
    simp [h]
  | cons l lt ih =>
    intro s r h
    cases s with
    | nil => simp [stripLit] at h
    | cons c ct =>
      simp only [stripLit] at h
      split at h
      · rename_i hcl
        simp [ih ct r h, hcl]
      · exact absurd h (by simp)

theorem skipJWs_decomp (s : Str) :
    ∃ w, s = w ++ skipJWs s ∧ ∀ c ∈ w, isJsonWs c = true :=
  ⟨s.takeWhile isJsonWs, (List.takeWhile_append_dropWhile isJsonWs s).symm,
    fun _ hc => List.mem_takeWhile_imp hc⟩

theorem pv_suffix : ∀ fuel : Nat,
    (∀ s v r, pVal fuel s = some (v, r) → ∃ pre c, s = pre ++ c :: r ∧ isEnderC c = true) ∧
    (∀ s ms r, pMembers fuel s = some (ms, r) → ∃ pre, s = pre ++ '\x7d' :: r) ∧
    (∀ s es r, pElems fuel s = some (es, r) → ∃ pre, s = pre ++ ']' :: r) := by
  intro fuel
  induction fuel with
  | zero =>
    refine ⟨?_, ?_, ?_⟩
    · intro s v r h
      rw [show pVal 0 s = none from rfl] at h
      exact absurd h (by simp)
    · intro s ms r h
      rw [show pMembers 0 s = none from rfl] at h
      exact absurd h (by simp)
    · intro s es r h
      rw [show pElems 0 s = none from rfl] at h
      exact absurd h (by simp)
  | succ fuel ih =>
    obtain ⟨ihV, ihM, ihE⟩ := ih
    refine ⟨?_, ?_, ?_⟩
    · intro s v r h
      rw [pVal.eq_def] at h
      split at h
      · exact absurd h (by simp)
      rename_i fuel2 hfe
      have hf2 : fuel2 = fuel := by omega
      subst hf2
      split at h
      · -- object
        rename_i rest
        split at h
        · rename_i r' heq
          injection h with h'
          injection h' with ha hb
          subst hb
          obtain ⟨w, hw, _⟩ := skipJWs_decomp rest
          refine ⟨'\x7b' :: w, '\x7d', ?_, by decide⟩
          conv_lhs => rw [hw, heq]
          simp
        · split at h
          · rename_i ms' r' heqM
            injection h with h'
            injection h' with ha hb
            subst hb
            obtain ⟨preM, hM⟩ := ihM _ _ _ heqM
            obtain ⟨w, hw, _⟩ := skipJWs_decomp rest
            refine ⟨'\x7b' :: (w ++ preM), '\x7d', ?_, by decide⟩
            conv_lhs => rw [hw, hM]
            simp
          · exact absurd h (by simp)
      · -- array
        rename_i rest
        split at h
        · rename_i r' heq
          injection h with h'
          injection h' with ha hb
          subst hb
          obtain ⟨w, hw, _⟩ := skipJWs_decomp rest
          refine ⟨'[' :: w, ']', ?_, by decide⟩
          conv_lhs => rw [hw, heq]
          simp
        · split at h
          · rename_i es' r' heqE
            injection h with h'
            injection h' with ha hb
            subst hb
            obtain ⟨preE, hE⟩ := ihE _ _ _ heqE
            obtain ⟨w, hw, _⟩ := skipJWs_decomp rest
            refine ⟨'[' :: (w ++ preE), ']', ?_, by decide⟩
            conv_lhs => rw [hw, hE]
            simp
          · exact absurd h (by simp)
      · -- string
        rename_i rest
        split at h
        · rename_i cs' r' heqS
          injection h with h'
          injection h' with ha hb
          subst hb
          obtain ⟨pre, hpre⟩ := pStringBody_suffix _ _ _ heqS
          refine ⟨'"' :: pre, '"', ?_, by decide⟩
          rw [hpre]
          simp
        · exact absurd h (by simp)
      · -- literals and numbers
        rename_i c rest hne1 hne2 hne3
        split at h
        · rename_i hct
          split at h
          · rename_i r' heqL
            injection h with h'
            injection h' with ha hb
            subst hb hct
            have hr := stripLit_decomp _ _ _ heqL
            refine ⟨['t', 'r', 'u'], 'e', ?_, by decide⟩
            rw [hr]
            rfl
          · exact absurd h (by simp)
        · split at h
          · rename_i hcf
            split at h
            · rename_i r' heqL
              injection h with h'
              injection h' with ha hb
              subst hb hcf
              have hr := stripLit_decomp _ _ _ heqL
              refine ⟨['f', 'a', 'l', 's'], 'e', ?_, by decide⟩
              rw [hr]
              rfl
            · exact absurd h (by simp)
          · split at h
            · rename_i hcn
              split at h
              · rename_i r' heqL
                injection h with h'
                injection h' with ha hb
                subst hb hcn
                have hr := stripLit_decomp _ _ _ heqL
                refine ⟨['n', 'u', 'l'], 'l', ?_, by decide⟩
                rw [hr]
                rfl
              · exact absurd h (by simp)
            · split at h
              · rename_i hnum
                split at h
                · rename_i r' heqN
                  injection h with h'
                  injection h' with ha hb
                  subst hb
                  obtain ⟨pre, d, hpre, hd⟩ := pNumber_suffix _ _ heqN
                  exact ⟨pre, d, hpre, by simp [isEnderC, hd]⟩
                · exact absurd h (by simp)
              · exact absurd h (by simp)
      · exact absurd h (by simp)
    · intro s ms r h
      rw [pMembers.eq_def] at h
      split at h
      · exact absurd h (by simp)
      rename_i fuel2 hfe
      have hf2 : fuel2 = fuel := by omega
      subst hf2
      split at h
      · rename_i rest
        split at h
        · rename_i key r1 heqS
          split at h
          · rename_i r3 heqC
            split at h
            · rename_i v r4 heqV
              split at h
              · rename_i r6 heqComma
                split at h
                · rename_i ms' r' heqM
                  injection h with h'
                  injection h' with ha hb
                  subst hb
                  obtain ⟨preS, hS⟩ := pStringBody_suffix _ _ _ heqS
                  obtain ⟨w2, hw2, _⟩ := skipJWs_decomp r1
                  obtain ⟨w3, hw3, _⟩ := skipJWs_decomp r3
                  obtain ⟨preV, cV, hV, _⟩ := ihV _ _ _ heqV
                  obtain ⟨w4, hw4, _⟩ := skipJWs_decomp r4
                  obtain ⟨w6, hw6, _⟩ := skipJWs_decomp r6
                  obtain ⟨preM, hM⟩ := ihM _ _ _ heqM
                  refine ⟨'"' :: (preS ++ '"' :: (w2 ++ ':' :: (w3 ++ preV ++ cV :: (w4 ++ ',' :: (w6 ++ preM))))), ?_⟩
                  conv_lhs => rw [hS, hw2, heqC, hw3, hV, hw4, heqComma, hw6, hM]
                  simp
                · exact absurd h (by simp)
              · rename_i r7 heqBrace
                injection h with h'
                injection h' with ha hb
                subst hb
                obtain ⟨preS, hS⟩ := pStringBody_suffix _ _ _ heqS
                obtain ⟨w2, hw2, _⟩ := skipJWs_decomp r1
                obtain ⟨w3, hw3, _⟩ := skipJWs_decomp r3
                obtain ⟨preV, cV, hV, _⟩ := ihV _ _ _ heqV
                obtain ⟨w4, hw4, _⟩ := skipJWs_decomp r4
                refine ⟨'"' :: (preS ++ '"' :: (w2 ++ ':' :: (w3 ++ preV ++ cV :: w4))), ?_⟩
                conv_lhs => rw [hS, hw2, heqC, hw3, hV, hw4, heqBrace]
                simp
              · exact absurd h (by simp)
            · exact absurd h (by simp)
          · exact absurd h (by simp)
        · exact absurd h (by simp)
      · exact absurd h (by simp)
    · intro s es r h
      rw [pElems.eq_def] at h
      split at h
      · exact absurd h (by simp)
      rename_i fuel2 hfe
      have hf2 : fuel2 = fuel := by omega
      subst hf2
      split at h
      · rename_i v r1 heqV
        split at h
        · rename_i r2 heqComma
          split at h
          · rename_i es' r' heqE
            injection h with h'
            injection h' with ha hb
            subst hb
            obtain ⟨preV, cV, hV, _⟩ := ihV _ _ _ heqV
            obtain ⟨w, hw, _⟩ := skipJWs_decomp r1
            obtain ⟨w2, hw2, _⟩ := skipJWs_decomp r2
            obtain ⟨preE, hE⟩ := ihE _ _ _ heqE
            refine ⟨preV ++ cV :: (w ++ ',' :: (w2 ++ preE)), ?_⟩
            conv_lhs => rw [hV, hw, heqComma, hw2, hE]
            simp
          · exact absurd h (by simp)
        · rename_i r3 heqBr
          injection h with h'
          injection h' with ha hb
          subst hb
          obtain ⟨preV, cV, hV, _⟩ := ihV _ _ _ heqV
          obtain ⟨w, hw, _⟩ := skipJWs_decomp r1
          refine ⟨preV ++ cV :: w, ?_⟩
          conv_lhs => rw [hV, hw, heqBr]
          simp
        · exact absurd h (by simp)
      · exact absurd h (by simp)

theorem pVal_starter (fuel : Nat) (s : Str) (v : JsonVal) (r : Str)
    (h : pVal fuel s = some (v, r)) : ∃ c tl, s = c :: tl ∧ isStarterC c = true := by
  cases fuel with
  | zero =>
    rw [show pVal 0 s = none from rfl] at h
    exact absurd h (by simp)
  | succ fuel =>
    rw [pVal.eq_def] at h
    split at h
    · exact absurd h (by simp)
    rename_i fuel2 hfe
    split at h
    · rename_i rest
      exact ⟨'\x7b', rest, rfl, by decide⟩
    · rename_i rest
      exact ⟨'[', rest, rfl, by decide⟩
    · rename_i rest
      exact ⟨'"', rest, rfl, by decide⟩
    · rename_i c rest hne1 hne2 hne3
      split at h
      · rename_i hct
        exact ⟨c, rest, rfl, by simp [isStarterC, hct]⟩
      · split at h
        · rename_i hcf
          exact ⟨c, rest, rfl, by simp [isStarterC, hcf]⟩
        · split at h
          · rename_i hcn
            exact ⟨c, rest, rfl, by simp [isStarterC, hcn]⟩
          · split at h
            · rename_i hnum
              refine ⟨c, rest, rfl, ?_⟩
              rcases Bool.or_eq_true .. |>.mp hnum with hm | hd
              · simp [isStarterC, hm]
              · simp [isStarterC, hd]
            · exact absurd h (by simp)
    · exact absurd h (by simp)

theorem jsonWs_pyWs (c : Char) (h : isJsonWs c = true) : isPyWs c = true := by
  simp only [isJsonWs, Bool.or_eq_true, decide_eq_true_eq] at h
  rcases h with ((h | h) | h) | h <;> subst h <;> decide

theorem digit_not_ws (c : Char) (h : c.isDigit = true) : isPyWs c = false := by
  cases hws : isPyWs c
  · rfl
  · exfalso
    simp only [isPyWs, Bool.or_eq_true, decide_eq_true_eq] at hws
    rcases hws with ((((h1 | h1) | h1) | h1) | h1) | h1 <;> subst h1 <;>
      exact absurd h (by decide)

theorem digit_not_btick (c : Char) (h : c.isDigit = true) : (c = btick) = False := by
  simp only [eq_iff_iff, iff_false]
  intro hb
  subst hb
  exact absurd h (by decide)

theorem starter_facts (c : Char) (h : isStarterC c = true) :
    isPyWs c = false ∧ c ≠ btick := by
  simp only [isStarterC, Bool.or_eq_true, decide_eq_true_eq] at h
  rcases h with ((((((h | h) | h) | h) | h) | h) | h) | h
  · subst h; exact ⟨by decide, by decide⟩
  · subst h; exact ⟨by decide, by decide⟩
  · subst h; exact ⟨by decide, by decide⟩
  · subst h; exact ⟨by decide, by decide⟩
  · subst h; exact ⟨by decide, by decide⟩
  · subst h; exact ⟨by decide, by decide⟩
  · subst h; exact ⟨by decide, by decide⟩
  · exact ⟨digit_not_ws c h, fun hb => (digit_not_btick c h).mp hb⟩

theorem ender_facts (c : Char) (h : isEnderC c = true) :
    isPyWs c = false ∧ c ≠ btick := by
  simp only [isEnderC, Bool.or_eq_true, decide_eq_true_eq] at h
  rcases h with ((((h | h) | h) | h) | h) | h
  · subst h; exact ⟨by decide, by decide⟩
  · subst h; exact ⟨by decide, by decide⟩
  · subst h; exact ⟨by decide, by decide⟩
  · subst h; exact ⟨by decide, by decide⟩
  · subst h; exact ⟨by decide, by decide⟩
  · exact ⟨digit_not_ws c h, fun hb => (digit_not_btick c h).mp hb⟩

/-- For a valid JSON text, `str.strip()` returns the consumed value text: a
non-empty string whose first character is a JSON value starter and whose last
character is a JSON value ender (in particular neither is whitespace or a
backtick). -/
theorem json_loads_core (j : Str) (hvalid : isValidJson j = true) :
    ∃ core c0 tl ce pre,
      pyStrip j = core ∧ core = c0 :: tl ∧ core = pre ++ [ce] ∧
      isStarterC c0 = true ∧ isEnderC ce = true := by
  unfold isValidJson json_loads at hvalid
  split at hvalid
  · rename_i v rr heqV
    split at hvalid
    · rename_i hempty
      -- decompositions
      obtain ⟨w1, hw1, hw1ws⟩ := skipJWs_decomp j
      obtain ⟨c0, tl0, hst, hstarter⟩ := pVal_starter _ _ _ _ heqV
      obtain ⟨preV, cV, hender_eq, hender⟩ := (pv_suffix (j.length + 1)).1 _ _ _ heqV
      have hrr_ws : ∀ c ∈ rr, isJsonWs c = true := by
        intro c hc
        have := List.dropWhile_eq_nil_iff.mp (List.isEmpty_iff.mp hempty)
        exact this c hc
      -- core is the consumed part
      refine ⟨preV ++ [cV], c0, ?_, cV, preV, ?_, ?_, rfl, ?_, hender⟩
      · -- tl: head of core is c0
        exact (preV ++ [cV]).tail
      case _ =>
        -- pyStrip j = preV ++ [cV]
        have hj : j = w1 ++ (preV ++ [cV]) ++ rr := by
          conv_lhs => rw [hw1, hender_eq]
          simp
        have hcore_ne : preV ++ [cV] ≠ [] := by simp
        -- head of core
        have hhead : ∃ tlc, preV ++ [cV] = c0 :: tlc := by
          cases hc : preV ++ [cV] with
          | nil => exact absurd hc hcore_ne
          | cons x xs =>
            have : skipJWs j = (x :: xs) ++ rr := by rw [hender_eq, ← hc]; simp
            rw [hst] at this
            injection this with h1 h2
            exact ⟨xs, by rw [h1]⟩
        obtain ⟨tlc, htlc⟩ := hhead
        rw [hj]
        obtain ⟨hc0ws, _⟩ := starter_facts c0 hstarter
        obtain ⟨hcVws, _⟩ := ender_facts cV hender
        exact pyStrip_decomp w1 (preV ++ [cV]) rr
          (fun c hc => jsonWs_pyWs c (hw1ws c hc))
          (fun c hc => jsonWs_pyWs c (hrr_ws c hc))
          c0 tlc htlc hc0ws cV preV rfl hcVws
      case _ =>
        -- core = c0 :: tail core
        cases hc : preV ++ [cV] with
        | nil => exact absurd hc (by simp)
        | cons x xs =>
          have : skipJWs j = (x :: xs) ++ rr := by rw [hender_eq, ← hc]; simp
          rw [hst] at this
          injection this with h1 h2
          rw [h1]
          simp
      case _ => exact hstarter
    · exact absurd hvalid (by simp)
  · exact absurd hvalid (by simp)

theorem matchFence_false (l : Str) (c : Char) (tl : Str)
    (hd : l.dropWhile isPyWs = c :: tl) (hbt : c ≠ btick) : matchFence l = false := by
  unfold matchFence
  rw [hd]
  cases tl with
  | nil => rfl
  | cons c2 tl2 =>
    cases tl2 with
    | nil => rfl
    | cons c3 tl3 => simp [hbt]

theorem strip_fences_eq_strip (j core : Str) (hstrip : pyStrip j = core)
    (c0 : Char) (tl : Str) (hhead : core = c0 :: tl)
    (hc0ws : isPyWs c0 = false) (hc0bt : c0 ≠ btick)
    (ce : Char) (pre : Str) (hlast : core = pre ++ [ce])
    (hcews : isPyWs ce = false) (hcebt : ce ≠ btick) :
    strip_markdown_fences j = core := by
  have hc0n : (c0 = '\n') = False := by
    simp only [eq_iff_iff, iff_false]
    intro hh
    subst hh
    exact absurd hc0ws (by decide)
  have hline : (splitOnChar '\n' core).headD [] =
      c0 :: tl.takeWhile (fun c => !(c = '\n' : Bool)) := by
    rw [splitOnChar_headD, hhead]
    simp [List.takeWhile_cons, hc0n]
  have hfence : matchFence ((splitOnChar '\n' core).headD []) = false := by
    have hdw : ((splitOnChar '\n' core).headD []).dropWhile isPyWs
        = c0 :: tl.takeWhile (fun c => !(c = '\n' : Bool)) := by
      rw [hline]
      exact dropWhile_cons_neg c0 _ hc0ws
    exact matchFence_false _ c0 _ hdw hc0bt
  have hrev : core.reverse.take 3 = ce :: pre.reverse.take 2 := by
    rw [hlast]
    simp [List.reverse_append]
  have hends : endsWithBackticks core = false := by
    unfold endsWithBackticks
    rw [hrev]
    simp [hcebt]
  have hnoop : pyStrip core = core := pyStrip_noop core c0 tl hhead hc0ws ce pre hlast hcews
  unfold strip_markdown_fences
  simp only [hstrip, hfence, hends, Bool.false_eq_true, if_false, hnoop]

theorem strip_fences_wrap (j core : Str) (hstrip : pyStrip j = core) :
    strip_markdown_fences (wrap_in_fences j) = core := by
  -- the wrapped text has a backtick first and last: stripping it is a no-op
  have h1 : wrap_in_fences j = btick :: ("``json\n".data ++ (j ++ "\n```".data)) := by
    unfold wrap_in_fences
    rw [show ("```json\n".data : Str) = btick :: "``json\n".data from by decide]
    simp
  have h2 : wrap_in_fences j = (("```json\n".data ++ j) ++ "\n``".data) ++ [btick] := by
    unfold wrap_in_fences
    rw [show ("\n```".data : Str) = "\n``".data ++ [btick] from by decide]
    simp
  have hnoop : pyStrip (wrap_in_fences j) = wrap_in_fences j :=
    pyStrip_noop _ btick _ h1 (by decide) btick _ h2 (by decide)
  -- the first line is an opening fence
  have h3 : wrap_in_fences j = "```json".data ++ '\n' :: (j ++ "\n```".data) := by
    unfold wrap_in_fences
    rw [show ("```json\n".data : Str) = "```json".data ++ ['\n'] from by decide]
    simp
  have hsplit3 : splitOnChar '\n' (wrap_in_fences j)
      = "```json".data :: splitOnChar '\n' (j ++ "\n```".data) := by
    rw [h3]
    exact splitOnChar_append '\n' _ _ (by decide)
  have hfence : matchFence ((splitOnChar '\n' (wrap_in_fences j)).headD []) = true := by
    rw [hsplit3]
    simp only [List.headD_cons]
    decide
  have hjoin : joinWith '\n' (splitOnChar '\n' (wrap_in_fences j)).tail
      = j ++ "\n```".data := by
    rw [hsplit3]
    simp only [List.tail_cons]
    exact joinWith_splitOnChar '\n' _
  -- the joined remainder ends in three backticks
  have hrev : (j ++ "\n```".data).reverse.take 3 = [btick, btick, btick] := by
    rw [List.reverse_append, show ("\n```".data : Str).reverse = btick :: btick :: btick :: ['\n'] from by decide]
    simp
  have hends : endsWithBackticks (j ++ "\n```".data) = true := by
    unfold endsWithBackticks
    rw [hrev]
    decide
  have htake : (j ++ "\n```".data).take ((j ++ "\n```".data).length - 3) = j ++ ['\n'] := by
    have hassoc : j ++ "\n```".data = (j ++ ['\n']) ++ "```".data := by
      rw [show ("\n```".data : Str) = ['\n'] ++ "```".data from by decide]
      simp
    rw [hassoc]
    have hlen : ((j ++ ['\n']) ++ "```".data).length - 3 = (j ++ ['\n']).length := by
      simp
    rw [hlen]
    exact List.take_left _ _
  have hrs : pyRStrip (j ++ ['\n']) = pyRStrip j :=
    pyRStrip_append_ws j ['\n'] (by decide)
  unfold strip_markdown_fences
  simp only [hnoop, hfence, if_true, hjoin, hends, htake, hrs]
  rw [pyStrip_rstrip, hstrip]

theorem validate_components (x y : Str)
    (hxy : strip_markdown_fences x = strip_markdown_fences y) :
    (validate_llm_response x).success = (validate_llm_response y).success ∧
    (validate_llm_response x).data = (validate_llm_response y).data ∧
    (validate_llm_response x).errors = (validate_llm_response y).errors := by
  unfold validate_llm_response
  rw [hxy]
  cases json_loads (strip_markdown_fences y) with
  | none => simp
  | some parsed =>
    cases hv : resume_model_validate parsed with
    | ok d => simp [hv]
    | error es => simp [hv]

/-- C9: code-fence stripping before JSON validation is idempotent and
content-preserving: for every valid JSON text `j`, stripping the
```json-fenced wrapping of `j` gives the same text as stripping `j` itself,
stripping an already-stripped text changes nothing, and
`validate_llm_response` returns the same success flag, the same parsed data
and the same error list for the fenced input as for `j` directly. -/
theorem C9_fence_round_trip (j : Str) (hvalid : isValidJson j = true) :
    strip_markdown_fences (wrap_in_fences j) = strip_markdown_fences j ∧
    strip_markdown_fences (strip_markdown_fences j) = strip_markdown_fences j ∧
    (validate_llm_response (strip_markdown_fences (wrap_in_fences j))).success
      = (validate_llm_response j).success ∧
    (validate_llm_response (strip_markdown_fences (wrap_in_fences j))).data
      = (validate_llm_response j).data ∧
    (validate_llm_response (strip_markdown_fences (wrap_in_fences j))).errors
      = (validate_llm_response j).errors := by
  obtain ⟨core, c0, tl, ce, pre, hstrip, hhead, hlast, hstarter, hender⟩ :=
    json_loads_core j hvalid
  obtain ⟨hc0ws, hc0bt⟩ := starter_facts c0 hstarter
  obtain ⟨hcews, hcebt⟩ := ender_facts ce hender
  have hj : strip_markdown_fences j = core :=
    strip_fences_eq_strip j core hstrip c0 tl hhead hc0ws hc0bt ce pre hlast hcews hcebt
  have hcore : strip_markdown_fences core = core :=
    strip_fences_eq_strip core core
      (pyStrip_noop core c0 tl hhead hc0ws ce pre hlast hcews)
      c0 tl hhead hc0ws hc0bt ce pre hlast hcews hcebt
  have hwrap : strip_markdown_fences (wrap_in_fences j) = core :=
    strip_fences_wrap j core hstrip
  obtain ⟨hs, hd, he⟩ := validate_components (strip_markdown_fences (wrap_in_fences j)) j
    (by rw [hwrap, hcore, hj])
  exact ⟨by rw [hwrap, hj], by rw [hj, hcore], hs, hd, he⟩

/-- C9 witness: the round trip at a concrete valid JSON payload. -/
theorem C9_fence_round_trip_witness :
    isValidJson "\x7b\"personal_info\": \x7b\"name\": \"Ada\"\x7d\x7d".data = true ∧
    (strip_markdown_fences (wrap_in_fences "\x7b\"personal_info\": \x7b\"name\": \"Ada\"\x7d\x7d".data)
        = strip_markdown_fences "\x7b\"personal_info\": \x7b\"name\": \"Ada\"\x7d\x7d".data ∧
      strip_markdown_fences (strip_markdown_fences "\x7b\"personal_info\": \x7b\"name\": \"Ada\"\x7d\x7d".data)
        = strip_markdown_fences "\x7b\"personal_info\": \x7b\"name\": \"Ada\"\x7d\x7d".data ∧
      (validate_llm_response (strip_markdown_fences (wrap_in_fences "\x7b\"personal_info\": \x7b\"name\": \"Ada\"\x7d\x7d".data))).success
        = (validate_llm_response "\x7b\"personal_info\": \x7b\"name\": \"Ada\"\x7d\x7d".data).success ∧
      (validate_llm_response (strip_markdown_fences (wrap_in_fences "\x7b\"personal_info\": \x7b\"name\": \"Ada\"\x7d\x7d".data))).data
        = (validate_llm_response "\x7b\"personal_info\": \x7b\"name\": \"Ada\"\x7d\x7d".data).data ∧
      (validate_llm_response (strip_markdown_fences (wrap_in_fences "\x7b\"personal_info\": \x7b\"name\": \"Ada\"\x7d\x7d".data))).errors
        = (validate_llm_response "\x7b\"personal_info\": \x7b\"name\": \"Ada\"\x7d\x7d".data).errors) :=
  ⟨by decide, C9_fence_round_trip "\x7b\"personal_info\": \x7b\"name\": \"Ada\"\x7d\x7d".data (by decide)⟩

/-- C10: "anthropic" and "openai" are registered providers — chain validation
accepts entries naming them — yet with a fresh singleton cache `get_provider`
raises `NotImplementedError` for them, which is not the `ProviderError` the
pipeline's OCR and parse nodes catch, so the chain-fallback loops propagate it
instead of absorbing it. -/
theorem C10_unimplemented_providers :
    parse_chain "anthropic/claude-haiku" "F" = .ok [⟨"anthropic", "claude-haiku"⟩] ∧
    parse_chain "openai/gpt-4o-mini" "F" = .ok [⟨"openai", "gpt-4o-mini"⟩] ∧
    ∀ (ref : ModelRef) (key url m : String) (s : PState)
      (rest : List (ModelRef × ParseBehavior)) (orest : List (ModelRef × OcrBehavior)),
      ref.provider = "anthropic" ∨ ref.provider = "openai" →
      REGISTERED_PROVIDERS.contains ref.provider = true ∧
      (∃ msg, get_provider key url [] ref = .error (.notImplementedError msg)) ∧
      (∀ pmsg, PyExc.notImplementedError m ≠ PyExc.providerError pmsg) ∧
      (errTruthy s.error = false → s.current_parse_index = 0 →
        parse_node ((ref, .raise (.notImplementedError m)) :: rest) s =
          .error (.notImplementedError m)) ∧
      (s.current_ocr_index = 0 →
        ocr_node ((ref, .raise (.notImplementedError m)) :: orest) s =
          .error (.notImplementedError m)) := by
  refine ⟨by decide, by decide, ?_⟩
  intro ref key url m s rest orest h
  have hmem : REGISTERED_PROVIDERS.contains ref.provider = true := by
    rcases h with h | h <;> simp [REGISTERED_PROVIDERS, h]
  refine ⟨hmem, ?_, by intro pmsg hh; exact PyExc.noConfusion hh, ?_, ?_⟩
  · rcases h with h | h
    · exact ⟨"Anthropic provider is not yet implemented.",
        by simp [get_provider, create_provider, h, REGISTERED_PROVIDERS, List.lookup]⟩
    · exact ⟨"OpenAI provider is not yet implemented.",
        by simp [get_provider, create_provider, h, REGISTERED_PROVIDERS, List.lookup]⟩
  · intro h1 h2
    simp [parse_node, h1, h2]
  · intro h1
    simp [ocr_node, h1, ocrTry]

/-- C10 witness: a fresh `get_provider` call and both nodes at a concrete
unimplemented-provider chain entry. -/
theorem C10_unimplemented_providers_witness :
    REGISTERED_PROVIDERS.contains "anthropic" = true ∧
    parse_node [(⟨"anthropic", "claude-haiku"⟩, .raise (.notImplementedError "x"))] {} =
      .error (.notImplementedError "x") ∧
    ocr_node [(⟨"anthropic", "claude-haiku"⟩, .raise (.notImplementedError "x"))] {} =
      .error (.notImplementedError "x") := by
  have h := C10_unimplemented_providers.2.2 ⟨"anthropic", "claude-haiku"⟩ "k" "u" "x"
    {} [] [] (Or.inl rfl)
  exact ⟨h.1, h.2.2.2.1 rfl rfl, h.2.2.2.2 rfl⟩

end RP
